import Mathlib

/-!
# todolist-c-ulfius: persistence gateway (`db.c`) and request handlers (`main.c`)

A shallow embedding of the two C translation units.

* C strings are lists of characters (the bytes before the terminating NUL).
* `int` values are integers in `[-2^31, 2^31)`; a narrowing conversion is `toInt32`.
* The SQLite table `todos(id INTEGER PRIMARY KEY AUTOINCREMENT, text, done)` is a list
  of rows kept in rowid order together with the AUTOINCREMENT counter.
* The outcome of every `sqlite3_prepare_v2` and `sqlite3_step` that the C code tests is
  supplied by an `Engine` value.
* The jansson constructors `json_array` and `json_pack` are taken to return an object
  (memory is not exhausted and stored text is valid UTF-8), so the NULL tests on their
  results are never taken.
-/

namespace Todo

/-! ## Machine integers and C library helpers -/

/-- C string: the characters before the terminating NUL. -/
abbrev CStr := List Char

def INT_MAX : Int := 2147483647
def INT_MIN : Int := -2147483648
def LONG_MAX : Int := 9223372036854775807
def LONG_MIN : Int := -9223372036854775808

/-- Conversion of a 64-bit value to `int`: the low 32 bits, two's complement. -/
def toInt32 (x : Int) : Int := (x + 2147483648) % 4294967296 - 2147483648

/-- C `isdigit` on a byte. -/
def isdigit (c : Char) : Bool := decide ('0' ≤ c) && decide (c ≤ '9')

/-- C `isspace` in the C locale: space, `\t`, `\n`, `\v`, `\f`, `\r`. -/
def isspace (c : Char) : Bool :=
  c == ' ' || c == '\t' || c == '\n' || c == Char.ofNat 11 || c == Char.ofNat 12 || c == '\r'

/-- Value of a decimal digit character. -/
def digitVal (c : Char) : Nat := c.toNat - 48

/-- Accumulate the leading run of decimal digits of a string. -/
def parseDigits : Nat → CStr → Nat
  | acc, [] => acc
  | acc, c :: cs => if isdigit c then parseDigits (acc * 10 + digitVal c) cs else acc

/-- Saturation of an integer to the range of a 64-bit signed integer. -/
def sat64 (x : Int) : Int := if x > LONG_MAX then LONG_MAX else if x < LONG_MIN then LONG_MIN else x

/-- Library call `strtol(s, NULL, 10)`: leading white space, an optional sign, then the
longest run of decimal digits (0 when there is none); out-of-range values saturate. -/
def strtol (s : CStr) : Int :=
  match s.dropWhile isspace with
  | '-' :: r => sat64 (-(parseDigits 0 r : Int))
  | '+' :: r => sat64 (parseDigits 0 r)
  | r => sat64 (parseDigits 0 r)

/-- Library call `atoi(s)`, as glibc implements it: `(int) strtol(s, NULL, 10)`. (The C
standard leaves the result open when the value does not fit an `int`; whatever it is, it
is an `int`.) -/
def atoi (s : CStr) : Int := toInt32 (strtol s)

/-- Library call `strchr(s, c)`: the suffix of `s` that starts at the first occurrence
of `c`. -/
def strchr : CStr → Char → Option CStr
  | [], _ => none
  | d :: ds, c => if d = c then some (d :: ds) else strchr ds c

/-! ## The store -/

/-- Content of a table cell (SQLite storage classes NULL, INTEGER and TEXT). -/
inductive Cell where
  | null : Cell
  | int (n : Int) : Cell
  | text (s : CStr) : Cell
  deriving DecidableEq, Repr

/-- One row of `todos`: the rowid and the two data cells. -/
structure Row where
  id : Int
  text : Cell
  done : Cell
  deriving DecidableEq, Repr

/-- The database behind `g_db`: the rows of `todos` in rowid order and the
AUTOINCREMENT counter kept in `sqlite_sequence`. -/
structure Store where
  rows : List Row
  seq : Int
  deriving DecidableEq, Repr

/-- Rowids are unique and the rows are held in ascending rowid order; the counter is
not negative. -/
def Store.WF (db : Store) : Prop :=
  db.rows.Pairwise (fun a b => a.id < b.id) ∧ 0 ≤ db.seq

instance (db : Store) : Decidable db.WF := by
  unfold Store.WF
  infer_instance

/-- Outcomes of the calls into SQLite that the C code tests.
`prepare_ok n` is whether the `n`-th `sqlite3_prepare_v2` of an operation returns
`SQLITE_OK`; `step_error n = some k` makes the `k`-th `sqlite3_step` of the `n`-th
statement return an error code. -/
structure Engine where
  prepare_ok : Nat → Bool
  step_error : Nat → Option Nat

/-- An engine on which every call completes. -/
def Engine.ok : Engine := ⟨fun _ => true, fun _ => none⟩

/-- Whether the single `sqlite3_step` of a write statement completes. -/
def Engine.stepDone (env : Engine) (n : Nat) : Bool := env.step_error n != some 0

/-- The rows a `while (sqlite3_step(st) == SQLITE_ROW)` loop visits. -/
def Engine.visited (env : Engine) (n : Nat) (rs : List Row) : List Row :=
  match env.step_error n with
  | none => rs
  | some k => rs.take k

/-! ### SQL statements -/

/-- Largest rowid in the table (`none` for an empty table). -/
def maxRowid : List Row → Option Int
  | [] => none
  | r :: rs => match maxRowid rs with
    | none => some r.id
    | some m => some (max r.id m)

/-- Rowid chosen for an AUTOINCREMENT insert: one more than the larger of the largest
rowid in the table and the counter; `none` (SQLITE_FULL) once the largest possible
rowid has been used. -/
def nextRowid (db : Store) : Option Int :=
  let v : Int := match maxRowid db.rows with
    | none => 1
    | some m => m + 1
  if (maxRowid db.rows).getD 0 ≥ LONG_MAX ∨ db.seq ≥ LONG_MAX then none
  else some (max v (db.seq + 1))

/-- Place a row at its position in rowid order. -/
def insertRow (r : Row) : List Row → List Row
  | [] => [r]
  | x :: xs => if r.id < x.id then r :: x :: xs else x :: insertRow r xs

/-- Statement `INSERT INTO todos(text, done) VALUES(?, 0)`: the new store and the rowid
reported by `sqlite3_last_insert_rowid`. -/
def sqlInsert (db : Store) (text : CStr) : Option (Store × Int) :=
  match nextRowid db with
  | none => none
  | some rid => some (⟨insertRow ⟨rid, Cell.text text, Cell.int 0⟩ db.rows, rid⟩, rid)

/-- Statement `SELECT id, text, done FROM todos WHERE id=?`: the first result row. -/
def sqlSelectById (db : Store) (id : Int) : Option Row :=
  db.rows.find? (fun r => r.id == id)

/-- Statement `UPDATE todos SET ... WHERE id=?` with the assigned columns given as options. -/
def sqlUpdate (db : Store) (id : Int) (text : Option CStr) (done : Option Int) : Store :=
  { db with rows := db.rows.map (fun r =>
      if r.id == id then
        { r with text := match text with
                   | some t => Cell.text t
                   | none => r.text,
                 done := match done with
                   | some d => Cell.int d
                   | none => r.done }
      else r) }

/-- Statement `DELETE FROM todos WHERE id=?`. -/
def sqlDelete (db : Store) (id : Int) : Store :=
  { db with rows := db.rows.filter (fun r => r.id != id) }

/-- Statement `SELECT id, text, done FROM todos ORDER BY id ASC LIMIT ? OFFSET ?`; a
negative LIMIT means no limit and a negative OFFSET means 0. -/
def sqlSelectPaged (db : Store) (limit offset : Int) : List Row :=
  let sorted := db.rows.insertionSort (fun a b => a.id ≤ b.id)
  let rest := sorted.drop offset.toNat
  if limit < 0 then rest else rest.take limit.toNat

/-- Statement `SELECT id, text, done FROM todos ORDER BY id ASC`. -/
def sqlSelectAll (db : Store) : List Row :=
  db.rows.insertionSort (fun a b => a.id ≤ b.id)

/-! ### Column accessors -/

/-- The columns of the current result row of a statement. -/
abbrev Stmt := List Cell

/-- Result row of `SELECT id, text, done ...`. -/
def Row.cells (r : Row) : Stmt := [Cell.int r.id, r.text, r.done]

def sqlite3_column_count (st : Stmt) : Int := st.length

/-- Library call `sqlite3_column_int`: NULL reads as 0, TEXT is converted through its
leading integer (white space, sign, digits; 0 when there is none), and the 64-bit value
is cut to its low 32 bits. -/
def sqlite3_column_int (st : Stmt) (i : Nat) : Int :=
  match st.getD i Cell.null with
  | Cell.null => 0
  | Cell.int n => toInt32 n
  | Cell.text s => toInt32 (strtol s)

/-- Library call `sqlite3_column_text`: NULL reads as a NULL pointer, an INTEGER as its
decimal rendering. -/
def sqlite3_column_text (st : Stmt) (i : Nat) : Option CStr :=
  match st.getD i Cell.null with
  | Cell.null => none
  | Cell.int n => some (toString n).toList
  | Cell.text s => some s

inductive ColType where
  | SQLITE_INTEGER | SQLITE_TEXT | SQLITE_NULL
  deriving DecidableEq, Repr

def sqlite3_column_type (st : Stmt) (i : Nat) : ColType :=
  match st.getD i Cell.null with
  | Cell.null => ColType.SQLITE_NULL
  | Cell.int _ => ColType.SQLITE_INTEGER
  | Cell.text _ => ColType.SQLITE_TEXT

/-! ## `db.c` -/

/-- The JSON object built by `json_pack("{s:i, s:s, s:b}", "id", .., "text", .., "done", ..)`,
with the optional `created_at` member that `row_to_json` may add. -/
structure Item where
  id : Int
  text : CStr
  done : Bool
  created_at : Option CStr
  deriving DecidableEq, Repr

/-- Library call `json_pack("{s:i, s:s, s:b}", ...)`. -/
def json_pack_item (id : Int) (text : CStr) (done : Bool) : Item :=
  ⟨id, text, done, none⟩

/-- Embedding of `row_to_json` (db.c:10); `none` is the return value -1. -/
def row_to_json (st : Stmt) : Option Item :=
  let colc := sqlite3_column_count st
  if colc < 3 then none else
  let id := sqlite3_column_int st 0
  let text := (sqlite3_column_text st 1).getD []
  let done : Bool :=
    match sqlite3_column_type st 2 with
    | ColType.SQLITE_INTEGER => sqlite3_column_int st 2 != 0
    | ColType.SQLITE_TEXT =>
      match sqlite3_column_text st 2 with
      | some (c :: _) => c == '1' || c == 't' || c == 'T' || c == 'y' || c == 'Y'
      | _ => false
    | _ => false
  let obj := json_pack_item id text done
  if colc ≥ 4 then
    match sqlite3_column_text st 3 with
    | some c => some { obj with created_at := some c }
    | none => some obj
  else some obj

/-- The first three assignments of `db_list_paged` (db.c:190-192): the limit and offset
bound to the statement. -/
def pageBounds (limit offset : Int) : Int × Int :=
  let limit := if limit ≤ 0 then 50 else limit
  let limit := if limit > 500 then 500 else limit
  let offset := if offset < 0 then 0 else offset
  (limit, offset)

/-- The object `db_list_paged` builds for the current row (db.c:203-206). -/
def paged_row_json (st : Stmt) : Item :=
  let id := sqlite3_column_int st 0
  let txt := sqlite3_column_text st 1
  let done := sqlite3_column_int st 2
  json_pack_item id (txt.getD []) (done != 0)

/-- Embedding of `db_list` (db.c:99): return code and the array. -/
def db_list (env : Engine) (db : Store) : Int × Option (List Item) :=
  if !env.prepare_ok 0 then (1, none) else
  (0, some ((env.visited 0 (sqlSelectAll db)).filterMap (fun r => row_to_json r.cells)))

/-- Embedding of `db_create` (db.c:119): return code, `*out_json`, and the store
afterwards. -/
def db_create (env : Engine) (text : Option CStr) (db : Store) : Int × Option Item × Store :=
  if !env.prepare_ok 0 then (1, none, db) else
  match (if env.stepDone 0 then sqlInsert db (text.getD []) else none) with
  | none => (2, none, db)
  | some (db1, rowid) =>
    let id := toInt32 rowid
    if !env.prepare_ok 1 then (3, none, db1) else
    match (if env.stepDone 1 then sqlSelectById db1 id else none) with
    | some row =>
      match row_to_json row.cells with
      | some obj => (0, some obj, db1)
      | none => (4, none, db1)
    | none => (4, none, db1)

/-- Embedding of `db_update` (db.c:139): return code, `*out_json`, and the store
afterwards. `text = none` is a NULL pointer. -/
def db_update (env : Engine) (id : Int) (text : Option CStr) (done_flag : Int) (db : Store) :
    Int × Option Item × Store :=
  let assigned : Option (Option CStr × Option Int) :=
    if text.isSome && (done_flag == 0 || done_flag == 1) then some (text, some done_flag)
    else if text.isSome then some (text, none)
    else if done_flag == 0 || done_flag == 1 then some (none, some done_flag)
    else none
  match assigned with
  | none => (0, none, db)
  | some (t, d) =>
    if !env.prepare_ok 0 then (1, none, db) else
    if !env.stepDone 0 then (2, none, db) else
    let db1 := sqlUpdate db id t d
    if !env.prepare_ok 1 then (3, none, db1) else
    match (if env.stepDone 1 then sqlSelectById db1 id else none) with
    | some row =>
      match row_to_json row.cells with
      | some obj => (0, some obj, db1)
      | none => (4, none, db1)
    | none => (4, none, db1)

/-- Embedding of `db_delete` (db.c:179): return code and the store afterwards. -/
def db_delete (env : Engine) (id : Int) (db : Store) : Int × Store :=
  if !env.prepare_ok 0 then (1, db) else
  if env.stepDone 0 then (0, sqlDelete db id) else (2, db)

/-- Embedding of `db_list_paged` (db.c:189): return code and the array. -/
def db_list_paged (env : Engine) (limit offset : Int) (db : Store) : Int × Option (List Item) :=
  let b := pageBounds limit offset
  if !env.prepare_ok 0 then (1, none) else
  (0, some ((env.visited 0 (sqlSelectPaged db b.1 b.2)).map (fun r => paged_row_json r.cells)))

/-! ## `main.c` -/

/-- A member value of the parsed request body, as far as the handlers inspect it. -/
inductive JValue where
  | string (s : CStr) : JValue
  | boolean (b : Bool) : JValue
  | other : JValue
  deriving DecidableEq, Repr

/-- The value `json_loadb` returns for a valid body: an object with its members, or an
array. -/
inductive JBody where
  | object (members : List (String × JValue)) : JBody
  | array : JBody
  deriving DecidableEq, Repr

/-- Library call `json_object_get`: NULL for a missing key and for a value that is not
an object. -/
def json_object_get : JBody → String → Option JValue
  | JBody.object ms, key => (ms.find? (fun m => m.1 == key)).map (fun m => m.2)
  | JBody.array, _ => none

/-- The fields of `struct _u_request` the handlers read. `map_url_id` is
`u_map_get(req->map_url, "id")`; `body` is the result of `json_loadb` on the binary
body, `none` when it is not valid JSON. -/
structure Request where
  map_url_id : Option CStr
  url_path : Option CStr
  http_url : Option CStr
  body : Option JBody
  deriving DecidableEq, Repr

/-- JSON bodies the handlers send. -/
inductive Body where
  | error (msg : String) : Body
  | item (j : Item) : Body
  | items (l : List Item) : Body
  | status (s : String) : Body
  | empty : Body
  deriving DecidableEq, Repr

/-- Status code and JSON body set on the response. -/
structure Response where
  status : Int
  body : Body
  deriving DecidableEq, Repr

/-- Embedding of `send_json` (main.c:18): `ulfius_set_json_body_response` sets the
status and the body when it is given a JSON value and leaves the response as
initialised (status 200, no body) when it is given NULL. -/
def send_json (status : Int) (j : Option Body) : Response :=
  match j with
  | some b => ⟨status, b⟩
  | none => ⟨200, Body.empty⟩

/-- Embedding of `send_error_json` (main.c:23). -/
def send_error_json (status : Int) (msg : String) : Response :=
  send_json status (some (Body.error msg))

/-- Lines 42-49 of `parse_id_from_request`, on the text `p` after the prefix: -1 for an
empty `p`; otherwise `q` skips the leading digits and `atoi(p)` is returned when `q`
stands at the end or at a `/`, else -1. -/
def parse_id_tail (p : CStr) : Int :=
  match p with
  | [] => -1
  | _ :: _ =>
    match p.dropWhile isdigit with
    | [] => atoi p
    | '/' :: _ => atoi p
    | _ => -1

/-- Embedding of `parse_id_from_request` (main.c:31). -/
def parse_id_from_request (req : Request) : Int :=
  match req.map_url_id with
  | some (c :: cs) =>
    if (c :: cs).all isdigit then atoi (c :: cs) else -1
  | _ =>
    match (match req.url_path with
           | some p => some p
           | none => req.http_url) with
    | none => -1
    | some path =>
      let pfx : CStr := "/api/todos/".toList
      if !pfx.isPrefixOf path then -1 else
      parse_id_tail (path.drop pfx.length)

/-- The loop of `get_query_int` (main.c:190-198) on the text after `?`; every round
moves past one `&`, so `fuel` rounds are enough for a string of fewer than `fuel`
characters. -/
def get_query_loop (key : CStr) (defv : Int) : Nat → CStr → Int
  | 0, _ => defv
  | fuel + 1, q =>
    match q with
    | [] => defv
    | _ :: _ =>
      if key.isPrefixOf q && (q.drop key.length).head? == some '=' then
        atoi (q.drop (key.length + 1))
      else
        match strchr q '&' with
        | none => defv
        | some amp => get_query_loop key defv fuel (amp.drop 1)

/-- Embedding of `get_query_int` (main.c:184). -/
def get_query_int (url : Option CStr) (key : CStr) (defv : Int) : Int :=
  match url with
  | none => defv
  | some u =>
    match strchr u '?' with
    | none => defv
    | some q => get_query_loop key defv (q.length + 1) (q.drop 1)

/-- Embedding of `h_get_todos` (main.c:54). -/
def h_get_todos (env : Engine) (req : Request) (db : Store) : Response :=
  let limit := get_query_int req.http_url "limit".toList 50
  let offset := get_query_int req.http_url "offset".toList 0
  match db_list_paged env limit offset db with
  | (rc, arr) =>
    if rc != 0 then send_error_json 500 "db list error" else
    send_json 200 (arr.map Body.items)

/-- Embedding of `h_post_todo` (main.c:65). -/
def h_post_todo (env : Engine) (req : Request) (db : Store) : Response × Store :=
  match req.body with
  | none => (send_error_json 400 "invalid json", db)
  | some body =>
    match json_object_get body "text" with
    | some (JValue.string text) =>
      match db_create env (some text) db with
      | (rc, created, db1) =>
        if rc != 0 then (send_error_json 500 "db create error", db1) else
        (send_json 201 (created.map Body.item), db1)
    | _ => (send_error_json 400 "missing text", db)

/-- The `text` argument `h_put_todo` passes on (main.c:93, 96-97): the member `text`
when it is a string, else NULL. -/
def put_body_text (body : JBody) : Option CStr :=
  match json_object_get body "text" with
  | some (JValue.string s) => some s
  | _ => none

/-- The `done_flag` argument `h_put_todo` passes on (main.c:94, 98-99): 1 or 0 for a
boolean member `done`, else -1. -/
def put_body_done_flag (body : JBody) : Int :=
  match json_object_get body "done" with
  | some (JValue.boolean b) => if b then 1 else 0
  | _ => -1

/-- Embedding of `h_put_todo` (main.c:85). -/
def h_put_todo (env : Engine) (req : Request) (db : Store) : Response × Store :=
  let id := parse_id_from_request req
  if id ≤ 0 then (send_error_json 400 "invalid id", db) else
  match req.body with
  | none => (send_error_json 400 "invalid json", db)
  | some body =>
    let text := put_body_text body
    let done_flag := put_body_done_flag body
    match db_update env id text done_flag db with
    | (rc, updated, db1) =>
      if rc != 0 then (send_error_json 404 "not found or update failed", db1) else
      match updated with
      | none => (send_error_json 404 "not found", db1)
      | some u => (send_json 200 (some (Body.item u)), db1)

/-- Embedding of `h_delete_todo` (main.c:114). -/
def h_delete_todo (env : Engine) (req : Request) (db : Store) : Response × Store :=
  let id := parse_id_from_request req
  if id ≤ 0 then (send_error_json 400 "invalid id", db) else
  match db_delete env id db with
  | (rc, db1) =>
    if rc != 0 then (send_error_json 404 "not found", db1) else
    (send_json 200 (some (Body.status "deleted")), db1)

/-! ## Notions used to state the claims -/

/-- The decimal number a string of digits denotes. -/
def decimalValue (s : CStr) : Nat := Nat.ofDigits 10 (s.reverse.map digitVal)

/-- The id segment of a request: the route-bound `id` parameter or, when that is absent
or empty, the part of the path after `/api/todos/` up to its next `/`. -/
def idSegment (req : Request) : Option CStr :=
  match req.map_url_id with
  | some (c :: cs) => some (c :: cs)
  | _ =>
    match (match req.url_path with
           | some p => some p
           | none => req.http_url) with
    | none => none
    | some path =>
      if "/api/todos/".toList.isPrefixOf path then
        some ((path.drop 11).takeWhile (fun c => c != '/'))
      else none

/-- Split a string at every `&`. -/
def splitAmp : CStr → List CStr
  | [] => [[]]
  | c :: cs =>
    if c = '&' then [] :: splitAmp cs
    else
      match splitAmp cs with
      | [] => [[c]]
      | s :: ss => (c :: s) :: ss

/-- The value of query parameter `key` in a URL: the query string is the text after the
first `?`, its parameters are the pieces between `&`, and the value is what follows
`key=` in the first piece that starts with it. `none` when the URL is NULL, has no `?`,
or no piece starts with `key=`. -/
def queryParam (url : Option CStr) (key : CStr) : Option CStr :=
  match url with
  | none => none
  | some u =>
    match u.dropWhile (fun c => c != '?') with
    | [] => none
    | _ :: q =>
      (splitAmp q).findSome? (fun seg =>
        if (key ++ ['=']).isPrefixOf seg then some (seg.drop (key.length + 1)) else none)

/-- Whether a parameter value begins, after optional white space and an optional sign,
with a decimal digit. -/
def startsWithInteger (v : CStr) : Bool :=
  match v.dropWhile isspace with
  | '-' :: c :: _ => isdigit c
  | '+' :: c :: _ => isdigit c
  | c :: _ => isdigit c
  | [] => false

/-- The limit `h_get_todos` lists with: `get_query_int` followed by the clamping of
`db_list_paged`. -/
def effectiveLimit (req : Request) : Int :=
  (pageBounds (get_query_int req.http_url "limit".toList 50)
    (get_query_int req.http_url "offset".toList 0)).1

/-- The offset `h_get_todos` lists with. -/
def effectiveOffset (req : Request) : Int :=
  (pageBounds (get_query_int req.http_url "limit".toList 50)
    (get_query_int req.http_url "offset".toList 0)).2

/-! ## Basic facts about the helpers -/

theorem toInt32_of_range (x : Int) (h1 : INT_MIN ≤ x) (h2 : x ≤ INT_MAX) : toInt32 x = x := by
  unfold toInt32
  unfold INT_MIN at h1
  unfold INT_MAX at h2
  omega

theorem toInt32_range (x : Int) : INT_MIN ≤ toInt32 x ∧ toInt32 x ≤ INT_MAX := by
  unfold toInt32 INT_MIN INT_MAX
  omega

/-! ## Pagination bounds -/

/-- The clamping done by the first three assignments of `db_list_paged`. -/
theorem pageBounds_spec (limit offset : Int) :
    (limit ≤ 0 → (pageBounds limit offset).1 = 50) ∧
    (limit > 500 → (pageBounds limit offset).1 = 500) ∧
    (1 ≤ limit ∧ limit ≤ 500 → (pageBounds limit offset).1 = limit) ∧
    (offset < 0 → (pageBounds limit offset).2 = 0) ∧
    (0 ≤ offset → (pageBounds limit offset).2 = offset) ∧
    1 ≤ (pageBounds limit offset).1 ∧ (pageBounds limit offset).1 ≤ 500 ∧
    0 ≤ (pageBounds limit offset).2 := by
  simp only [pageBounds]
  refine ⟨?_, ?_, ?_, ?_, ?_, ?_, ?_, ?_⟩ <;> intros <;> split_ifs <;> omega

/-- The statement of `db_list_paged` is run with the clamped limit and offset. -/
theorem db_list_paged_eq (env : Engine) (limit offset : Int) (db : Store) :
    db_list_paged env limit offset db =
      if env.prepare_ok 0 then
        (0, some ((env.visited 0
          (sqlSelectPaged db (pageBounds limit offset).1 (pageBounds limit offset).2)).map
            (fun r => paged_row_json r.cells)))
      else (1, none) := by
  unfold db_list_paged
  cases h : env.prepare_ok 0 <;> simp

/-- C2: the limit and offset `db_list_paged` binds into its query are the clamped
values (50 for a limit `≤ 0`, 500 for a limit above 500, the limit itself in between;
0 for a negative offset, the offset itself otherwise), so the limit lies in `[1, 500]`
and the offset is not negative; the statement is run with exactly these values. -/
theorem db_list_paged_bounds (limit offset : Int) :
    ((limit ≤ 0 → (pageBounds limit offset).1 = 50) ∧
     (limit > 500 → (pageBounds limit offset).1 = 500) ∧
     (1 ≤ limit ∧ limit ≤ 500 → (pageBounds limit offset).1 = limit) ∧
     (offset < 0 → (pageBounds limit offset).2 = 0) ∧
     (0 ≤ offset → (pageBounds limit offset).2 = offset) ∧
     1 ≤ (pageBounds limit offset).1 ∧ (pageBounds limit offset).1 ≤ 500 ∧
     0 ≤ (pageBounds limit offset).2) ∧
    ∀ (env : Engine) (db : Store),
      db_list_paged env limit offset db =
        if env.prepare_ok 0 then
          (0, some ((env.visited 0
            (sqlSelectPaged db (pageBounds limit offset).1 (pageBounds limit offset).2)).map
              (fun r => paged_row_json r.cells)))
        else (1, none) :=
  ⟨pageBounds_spec limit offset, fun env db => db_list_paged_eq env limit offset db⟩

/-! ## Row shaping -/

/-- On a row whose `done` cell is NULL or an INTEGER the object built inline by
`db_list_paged` is the one `row_to_json` builds. -/
theorem paged_row_json_eq_row_to_json (r : Row) (h : ∀ s, r.done ≠ Cell.text s) :
    row_to_json r.cells = some (paged_row_json r.cells) := by
  obtain ⟨id, t, d⟩ := r
  cases d with
  | null => simp [row_to_json, paged_row_json, Row.cells, sqlite3_column_count,
      sqlite3_column_type, sqlite3_column_int, json_pack_item]
  | int n => simp [row_to_json, paged_row_json, Row.cells, sqlite3_column_count,
      sqlite3_column_type, sqlite3_column_int, json_pack_item]
  | text s => exact absurd rfl (h s)

/-- C10: on the stored row `(1, "a", done = TEXT "true")` the two shaping paths differ:
`row_to_json` (used by `db_list`, `db_create`, `db_update`) reads the truthy token as
`done = true`, the inline shaping of `db_list_paged` reads it through
`sqlite3_column_int` as `done = false`; likewise the token `"2"` is false for
`row_to_json` and true for `db_list_paged`. -/
theorem paged_row_shaping_differs :
    row_to_json (Row.cells ⟨1, Cell.text "a".toList, Cell.text "true".toList⟩)
      = some ⟨1, "a".toList, true, none⟩ ∧
    paged_row_json (Row.cells ⟨1, Cell.text "a".toList, Cell.text "true".toList⟩)
      = ⟨1, "a".toList, false, none⟩ ∧
    (db_list_paged Engine.ok 50 0
        ⟨[⟨1, Cell.text "a".toList, Cell.text "true".toList⟩], 1⟩).2
      ≠ (db_list Engine.ok ⟨[⟨1, Cell.text "a".toList, Cell.text "true".toList⟩], 1⟩).2 ∧
    row_to_json (Row.cells ⟨1, Cell.text "a".toList, Cell.text "2".toList⟩)
      = some ⟨1, "a".toList, false, none⟩ ∧
    paged_row_json (Row.cells ⟨1, Cell.text "a".toList, Cell.text "2".toList⟩)
      = ⟨1, "a".toList, true, none⟩ := by
  decide

/-! ## Update with no field supplied -/

/-- With `text = NULL` and a `done_flag` other than 0 and 1, `db_update` returns 0
without touching the store and without filling `*out_json`, whatever the engine does
and whether or not the row exists. -/
theorem db_update_nothing (env : Engine) (id done_flag : Int) (db : Store)
    (h0 : done_flag ≠ 0) (h1 : done_flag ≠ 1) :
    db_update env id none done_flag db = (0, none, db) := by
  simp [db_update, h0, h1]

/-- C6: a PUT on the existing item 1 whose body is the empty object `{}` reaches
`db_update` with `text = NULL`, `done_flag = -1`; `db_update` returns 0 with no item
and `h_put_todo` answers 404 "not found" instead of 200 with the current item. -/
theorem h_put_todo_empty_update :
    db_update Engine.ok 1 none (-1) ⟨[⟨1, Cell.text "a".toList, Cell.int 0⟩], 1⟩
      = (0, none, ⟨[⟨1, Cell.text "a".toList, Cell.int 0⟩], 1⟩) ∧
    h_put_todo Engine.ok ⟨some "1".toList, some "/api/todos/1".toList,
        some "/api/todos/1".toList, some (JBody.object [])⟩
        ⟨[⟨1, Cell.text "a".toList, Cell.int 0⟩], 1⟩
      = (⟨404, Body.error "not found"⟩, ⟨[⟨1, Cell.text "a".toList, Cell.int 0⟩], 1⟩) := by
  decide

/-! ## Update of a missing id -/

theorem sqlUpdate_missing (db : Store) (id : Int) (t : Option CStr) (d : Option Int)
    (h : ∀ r ∈ db.rows, r.id ≠ id) : sqlUpdate db id t d = db := by
  obtain ⟨rows, seq⟩ := db
  simp only [sqlUpdate, Store.mk.injEq, and_true]
  have : ∀ l : List Row, (∀ r ∈ l, r.id ≠ id) →
      l.map (fun r => if (r.id == id) = true then
        { r with text := match t with
                   | some t => Cell.text t
                   | none => r.text,
                 done := match d with
                   | some d => Cell.int d
                   | none => r.done }
        else r) = l := by
    intro l hl
    induction l with
    | nil => rfl
    | cons x xs ih =>
      have hx : x.id ≠ id := hl x (List.mem_cons_self _ _)
      simp only [List.map_cons, beq_iff_eq, hx, if_false]
      rw [List.cons.injEq]
      refine ⟨rfl, ?_⟩
      have := ih (fun r hr => hl r (List.mem_cons_of_mem _ hr))
      simpa using this
  exact this rows h

theorem sqlSelectById_missing (db : Store) (id : Int) (h : ∀ r ∈ db.rows, r.id ≠ id) :
    sqlSelectById db id = none := by
  simp only [sqlSelectById, List.find?_eq_none, beq_iff_eq]
  intro r hr
  exact h r hr

/-- When the id is missing and at least one field is supplied, `db_update` returns a
non-zero code (4 on a working engine), no item, and leaves the store as it was. -/
theorem db_update_missing_supplied (env : Engine) (id : Int) (text : Option CStr)
    (done_flag : Int) (db : Store) (h : ∀ r ∈ db.rows, r.id ≠ id)
    (hs : text.isSome = true ∨ done_flag = 0 ∨ done_flag = 1) :
    (db_update env id text done_flag db).1 ≠ 0 ∧
    (db_update env id text done_flag db).2 = (none, db) ∧
    (db_update Engine.ok id text done_flag db).1 = 4 := by
  have hupd : ∀ t d, sqlUpdate db id t d = db := fun t d => sqlUpdate_missing db id t d h
  have hsel : sqlSelectById db id = none := sqlSelectById_missing db id h
  have hok0 : Engine.ok.prepare_ok 0 = true := rfl
  have hok1 : Engine.ok.prepare_ok 1 = true := rfl
  have hok2 : Engine.ok.stepDone 0 = true := rfl
  have hok3 : Engine.ok.stepDone 1 = true := rfl
  have key : ∀ (e : Engine) (t : Option CStr) (d : Option Int),
      (if (!e.prepare_ok 0) = true then ((1 : Int), (none : Option Item), db) else
        if (!e.stepDone 0) = true then (2, none, db) else
        if (!e.prepare_ok 1) = true then (3, none, db) else
        match (if e.stepDone 1 = true then sqlSelectById db id else none) with
        | some row =>
          match row_to_json row.cells with
          | some obj => (0, some obj, db)
          | none => (4, none, db)
        | none => (4, none, db)) =
      (if e.prepare_ok 0 = false then 1 else if e.stepDone 0 = false then 2
        else if e.prepare_ok 1 = false then 3 else 4, none, db) := by
    intro e t d
    rw [hsel]
    cases e.prepare_ok 0 <;> cases e.prepare_ok 1 <;> cases e.stepDone 0 <;>
      cases e.stepDone 1 <;> rfl
  have main : ∀ e : Engine, db_update e id text done_flag db =
      (if e.prepare_ok 0 = false then 1 else if e.stepDone 0 = false then 2
        else if e.prepare_ok 1 = false then 3 else 4, none, db) := by
    intro e
    unfold db_update
    cases text with
    | some t =>
      by_cases hd : done_flag = 0 ∨ done_flag = 1
      · simp only [Option.isSome_some, Bool.true_and, beq_iff_eq, Bool.or_eq_true,
          decide_eq_true_eq, hd, if_true, hupd]
        exact key e (some t) (some done_flag)
      · simp only [Option.isSome_some, Bool.true_and, beq_iff_eq, Bool.or_eq_true,
          decide_eq_true_eq, hd, if_true, if_false, hupd]
        exact key e (some t) none
    | none =>
      have hd : done_flag = 0 ∨ done_flag = 1 := by simpa using hs
      simp only [Option.isSome_none, Bool.false_and, beq_iff_eq, Bool.or_eq_true,
        decide_eq_true_eq, hd, if_true, hupd]
      exact key e none (some done_flag)
  refine ⟨?_, ?_, ?_⟩
  · rw [main]
    dsimp only
    split_ifs <;> decide
  · rw [main]
  · rw [main, hok0, hok1, hok2]
    rfl

/-- C4: on the empty store, `db_update(7, NULL, -1)` returns 0 (success) although no row
with id 7 exists; with a field supplied the same call returns 4. -/
theorem db_update_missing_no_fields :
    db_update Engine.ok 7 none (-1) ⟨[], 0⟩ = (0, none, ⟨[], 0⟩) ∧
    db_update Engine.ok 7 none 1 ⟨[], 0⟩ = (4, none, ⟨[], 0⟩) ∧
    db_update Engine.ok 7 (some "x".toList) (-1) ⟨[], 0⟩ = (4, none, ⟨[], 0⟩) := by
  decide

/-! ## Delete -/

/-- C5: whenever the DELETE statement completes (it is prepared and its step returns
SQLITE_DONE), `db_delete(id)` returns 0, the store afterwards has no row with that id
and keeps every other row (in order) and the counter, present or not beforehand; a
second `db_delete(id)` returns 0 again and leaves that store as it is; and
`h_delete_todo` on a request carrying this (positive) id answers
200 `{"status":"deleted"}` both times. -/
theorem db_delete_idempotent (env1 env2 : Engine) (id : Int) (db : Store)
    (h1 : env1.prepare_ok 0 = true ∧ env1.step_error 0 ≠ some 0)
    (h2 : env2.prepare_ok 0 = true ∧ env2.step_error 0 ≠ some 0) :
    (db_delete env1 id db).1 = 0 ∧
    (∀ r ∈ (db_delete env1 id db).2.rows, r.id ≠ id) ∧
    (∀ r, r.id ≠ id → (r ∈ (db_delete env1 id db).2.rows ↔ r ∈ db.rows)) ∧
    (db_delete env1 id db).2.rows = db.rows.filter (fun r => decide (r.id ≠ id)) ∧
    (db_delete env1 id db).2.seq = db.seq ∧
    db_delete env2 id (db_delete env1 id db).2 = (0, (db_delete env1 id db).2) ∧
    ∀ req : Request, parse_id_from_request req = id → 0 < id →
      h_delete_todo env1 req db
        = (⟨200, Body.status "deleted"⟩, (db_delete env1 id db).2) ∧
      h_delete_todo env2 req (h_delete_todo env1 req db).2
        = (⟨200, Body.status "deleted"⟩, (db_delete env1 id db).2) := by
  have hd : ∀ (e : Engine), e.prepare_ok 0 = true ∧ e.step_error 0 ≠ some 0 →
      ∀ s : Store, db_delete e id s = (0, sqlDelete s id) := by
    intro e he s
    simp [db_delete, Engine.stepDone, he.1, he.2]
  have hidem : sqlDelete (sqlDelete db id) id = sqlDelete db id := by
    simp [sqlDelete, List.filter_filter]
  have hh : ∀ (e : Engine), e.prepare_ok 0 = true ∧ e.step_error 0 ≠ some 0 →
      ∀ (req : Request) (s : Store), parse_id_from_request req = id → 0 < id →
        h_delete_todo e req s = (⟨200, Body.status "deleted"⟩, sqlDelete s id) := by
    intro e he req s hreq hpos
    have hn : ¬ id ≤ 0 := by omega
    simp [h_delete_todo, hreq, hn, hd e he, send_json]
  rw [hd env1 h1]
  refine ⟨rfl, ?_, ?_, ?_, rfl, ?_, ?_⟩
  · intro r hr
    simp only [sqlDelete, List.mem_filter, bne_iff_ne] at hr
    exact hr.2
  · intro r hr
    simp only [sqlDelete, List.mem_filter, bne_iff_ne]
    exact ⟨fun h => h.1, fun h => ⟨h, hr⟩⟩
  · simp only [sqlDelete]
    congr 1
    funext r
    by_cases h : r.id = id <;> simp [h]
  · rw [hd env2 h2, hidem]
  · intro req hreq hpos
    rw [hh env1 h1 req db hreq hpos]
    refine ⟨rfl, ?_⟩
    rw [hh env2 h2 req _ hreq hpos, hidem]

/-- Instance of C5: deleting id 1 from a store holding items 1 and 2
on a working engine. -/
theorem db_delete_idempotent_witness :
    (Engine.ok.prepare_ok 0 = true ∧ Engine.ok.step_error 0 ≠ some 0) ∧
    (db_delete Engine.ok 1
      ⟨[⟨1, Cell.text "a".toList, Cell.int 0⟩, ⟨2, Cell.text "b".toList, Cell.int 1⟩], 2⟩).1
      = 0 :=
  ⟨⟨rfl, by decide⟩,
    (db_delete_idempotent Engine.ok Engine.ok 1
      ⟨[⟨1, Cell.text "a".toList, Cell.int 0⟩, ⟨2, Cell.text "b".toList, Cell.int 1⟩], 2⟩
      ⟨rfl, by decide⟩ ⟨rfl, by decide⟩).1⟩

/-! ## Status codes -/

/-- C9 as the claim states it fails: with items 1 present and an engine whose write
statement fails, `db_update` returns 2 and `db_delete` returns 2 (execution failures),
and `h_put_todo` and `h_delete_todo` answer 404, not 500. -/
theorem write_failure_answered_404 :
    (db_update ⟨fun _ => true, fun _ => some 0⟩ 1 (some "x".toList) (-1)
      ⟨[⟨1, Cell.text "a".toList, Cell.int 0⟩], 1⟩).1 = 2 ∧
    (h_put_todo ⟨fun _ => true, fun _ => some 0⟩
      ⟨some "1".toList, none, none,
        some (JBody.object [("text", JValue.string "x".toList)])⟩
      ⟨[⟨1, Cell.text "a".toList, Cell.int 0⟩], 1⟩).1
      = ⟨404, Body.error "not found or update failed"⟩ ∧
    (db_delete ⟨fun _ => true, fun _ => some 0⟩ 1
      ⟨[⟨1, Cell.text "a".toList, Cell.int 0⟩], 1⟩).1 = 2 ∧
    (h_delete_todo ⟨fun _ => true, fun _ => some 0⟩ ⟨some "1".toList, none, none, none⟩
      ⟨[⟨1, Cell.text "a".toList, Cell.int 0⟩], 1⟩).1
      = ⟨404, Body.error "not found"⟩ := by
  decide

/-- A zero return code of `db_create` comes with an item. -/
theorem db_create_zero_item (env : Engine) (text : Option CStr) (db : Store)
    (h : (db_create env text db).1 = 0) : ∃ j, (db_create env text db).2.1 = some j := by
  unfold db_create at h ⊢
  cases h0 : env.prepare_ok 0
  · simp [h0] at h
  · cases h2 : env.stepDone 0
    · simp [h0, h2] at h
    · cases h4 : sqlInsert db (text.getD []) with
      | none => simp [h0, h2, h4] at h
      | some res =>
        obtain ⟨db1, rowid⟩ := res
        cases h1 : env.prepare_ok 1
        · simp [h0, h2, h4, h1] at h
        · cases h3 : env.stepDone 1
          · simp [h0, h2, h4, h1, h3] at h
          · cases h5 : sqlSelectById db1 (toInt32 rowid) with
            | none => simp [h0, h2, h4, h1, h3, h5] at h
            | some row =>
              cases h6 : row_to_json row.cells with
              | none => simp [h0, h2, h4, h1, h3, h5, h6] at h
              | some obj => exact ⟨obj, by simp [h0, h2, h4, h1, h3, h5, h6]⟩

/-- C9, amended: `h_get_todos` and `h_post_todo` answer every non-zero gateway result
with 500 and an error body; `h_put_todo` and `h_delete_todo` answer every non-zero
gateway result, statement preparation and execution failures included, with 404 and an
error body (and `h_put_todo` also answers 404 when `db_update` returns 0 without an
item); 400 is answered exactly for a body that is not valid JSON (POST, PUT), a missing
or non-string `text` (POST) and a parsed id `≤ 0` (PUT, DELETE). -/
theorem handler_status_mapping (env : Engine) (req : Request) (db : Store) :
    -- GET
    (((db_list_paged env (get_query_int req.http_url "limit".toList 50)
          (get_query_int req.http_url "offset".toList 0) db).1 ≠ 0 →
        h_get_todos env req db = ⟨500, Body.error "db list error"⟩) ∧
     ((db_list_paged env (get_query_int req.http_url "limit".toList 50)
          (get_query_int req.http_url "offset".toList 0) db).1 = 0 →
        (h_get_todos env req db).status = 200)) ∧
    -- POST
    (((h_post_todo env req db).1.status = 400 ↔
        (req.body = none ∨ ∃ body, req.body = some body ∧
          ∀ t, json_object_get body "text" ≠ some (JValue.string t))) ∧
     (∀ body t, req.body = some body →
        json_object_get body "text" = some (JValue.string t) →
        ((db_create env (some t) db).1 ≠ 0 →
          (h_post_todo env req db).1 = ⟨500, Body.error "db create error"⟩) ∧
        ((db_create env (some t) db).1 = 0 → (h_post_todo env req db).1.status = 201))) ∧
    -- PUT
    (((h_put_todo env req db).1.status = 400 ↔
        (parse_id_from_request req ≤ 0 ∨ req.body = none)) ∧
     (∀ body, 0 < parse_id_from_request req → req.body = some body →
        ((db_update env (parse_id_from_request req) (put_body_text body)
            (put_body_done_flag body) db).1 ≠ 0 →
          (h_put_todo env req db).1 = ⟨404, Body.error "not found or update failed"⟩) ∧
        ((db_update env (parse_id_from_request req) (put_body_text body)
            (put_body_done_flag body) db).1 = 0 →
          (db_update env (parse_id_from_request req) (put_body_text body)
            (put_body_done_flag body) db).2.1 = none →
          (h_put_todo env req db).1 = ⟨404, Body.error "not found"⟩) ∧
        ((db_update env (parse_id_from_request req) (put_body_text body)
            (put_body_done_flag body) db).1 = 0 →
          (db_update env (parse_id_from_request req) (put_body_text body)
            (put_body_done_flag body) db).2.1 ≠ none →
          (h_put_todo env req db).1.status = 200))) ∧
    -- DELETE
    (((h_delete_todo env req db).1.status = 400 ↔ parse_id_from_request req ≤ 0) ∧
     (0 < parse_id_from_request req →
        ((db_delete env (parse_id_from_request req) db).1 ≠ 0 →
          (h_delete_todo env req db).1 = ⟨404, Body.error "not found"⟩) ∧
        ((db_delete env (parse_id_from_request req) db).1 = 0 →
          (h_delete_todo env req db).1 = ⟨200, Body.status "deleted"⟩))) := by
  refine ⟨⟨?_, ?_⟩, ⟨?_, ?_⟩, ⟨?_, ?_⟩, ⟨?_, ?_⟩⟩
  · intro h
    simp only [h_get_todos]
    revert h
    generalize db_list_paged env (get_query_int req.http_url "limit".toList 50)
          (get_query_int req.http_url "offset".toList 0) db = res
    obtain ⟨rc, arr⟩ := res
    intro h
    simp only [ne_eq] at h
    simp [h, send_error_json, send_json]
  · intro h
    simp only [h_get_todos]
    have hz : (db_list_paged env (get_query_int req.http_url "limit".toList 50)
          (get_query_int req.http_url "offset".toList 0) db).2 ≠ none := by
      intro hn
      unfold db_list_paged at h hn
      split_ifs at h hn
      simp at h
    revert h hz
    generalize db_list_paged env (get_query_int req.http_url "limit".toList 50)
          (get_query_int req.http_url "offset".toList 0) db = res
    obtain ⟨rc, arr⟩ := res
    intro h hz
    cases arr with
    | none => exact absurd rfl hz
    | some a =>
      simp only at h
      simp [h, send_json]
  · unfold h_post_todo
    cases hb : req.body with
    | none => simp [send_error_json, send_json]
    | some body =>
      simp only [false_or, Option.some.injEq, exists_eq_left', reduceCtorEq]
      cases hj : json_object_get body "text" with
      | none => simp [send_error_json, send_json]
      | some v =>
        cases v with
        | string t =>
          simp only [ne_eq, Option.some.injEq, JValue.string.injEq]
          generalize db_create env (some t) db = res
          obtain ⟨rc, created, db1⟩ := res
          by_cases hrc : rc = 0
          · cases created <;> simp [hrc, send_json]
          · simp [hrc, send_error_json, send_json]
        | boolean b => simp [send_error_json, send_json]
        | other => simp [send_error_json, send_json]
  · intro body t hb hj
    unfold h_post_todo
    simp only [hb, hj]
    refine ⟨?_, ?_⟩
    · intro h
      simp [h, send_error_json, send_json]
    · intro h
      obtain ⟨j, hjj⟩ := db_create_zero_item env (some t) db h
      revert h hjj
      generalize db_create env (some t) db = res
      obtain ⟨rc, created, db1⟩ := res
      intro h hjj
      simp only at h hjj
      simp [h, hjj, send_json]
  · unfold h_put_todo
    by_cases hid : parse_id_from_request req ≤ 0
    · simp [hid, send_error_json, send_json]
    · simp only [hid, if_false, false_or]
      cases hb : req.body with
      | none => simp [send_error_json, send_json]
      | some body =>
        simp only [reduceCtorEq, iff_false]
        generalize db_update env (parse_id_from_request req) (put_body_text body)
            (put_body_done_flag body) db = res
        obtain ⟨rc, updated, db1⟩ := res
        by_cases hrc : rc = 0
        · cases updated <;> simp [hrc, send_error_json, send_json]
        · simp [hrc, send_error_json, send_json]
  · intro body hpos hb
    have hid : ¬ parse_id_from_request req ≤ 0 := by omega
    unfold h_put_todo
    simp only [hid, if_false, hb]
    generalize db_update env (parse_id_from_request req) (put_body_text body)
        (put_body_done_flag body) db = res
    obtain ⟨rc, updated, db1⟩ := res
    refine ⟨?_, ?_, ?_⟩
    · intro h
      simp only at h
      simp [h, send_error_json, send_json]
    · intro h hn
      simp only at h hn
      simp [h, hn, send_error_json, send_json]
    · intro h hn
      simp only at h hn
      cases updated with
      | none => exact absurd rfl hn
      | some u => simp [h, send_json]
  · unfold h_delete_todo
    by_cases hid : parse_id_from_request req ≤ 0
    · simp [hid, send_error_json, send_json]
    · simp only [hid, if_false, iff_false]
      generalize db_delete env (parse_id_from_request req) db = res
      obtain ⟨rc, db1⟩ := res
      by_cases hrc : rc = 0
      · simp [hrc, send_json]
      · simp [hrc, send_error_json, send_json]
  · intro hpos
    have hid : ¬ parse_id_from_request req ≤ 0 := by omega
    unfold h_delete_todo
    simp only [hid, if_false]
    generalize db_delete env (parse_id_from_request req) db = res
    obtain ⟨rc, db1⟩ := res
    refine ⟨?_, ?_⟩
    · intro h
      simp only at h
      simp [h, send_error_json, send_json]
    · intro h
      simp only at h
      simp [h, send_json]

/-! ## Partial update -/

/-- In a table with unique rowids, looking a stored row up by its id finds that row. -/
theorem find_of_pairwise (rows : List Row) (r : Row)
    (hp : rows.Pairwise (fun a b => a.id < b.id)) (hr : r ∈ rows) :
    rows.find? (fun x => x.id == r.id) = some r := by
  induction rows with
  | nil => simp at hr
  | cons x xs ih =>
    rw [List.pairwise_cons] at hp
    rcases List.mem_cons.mp hr with h | h
    · subst h
      simp
    · have hlt : x.id < r.id := hp.1 r h
      have hne : ¬ x.id = r.id := by omega
      have hb : (x.id == r.id) = false := by simpa using hne
      rw [List.find?_cons, hb]
      exact ih hp.2 h

/-- A `SELECT ... WHERE id=?` after an UPDATE of that id reads the updated row. -/
theorem sqlSelectById_sqlUpdate (db : Store) (r : Row) (t : Option CStr) (d : Option Int)
    (hwf : db.WF) (hr : r ∈ db.rows) :
    sqlSelectById (sqlUpdate db r.id t d) r.id =
      some { r with text := match t with
                      | some t => Cell.text t
                      | none => r.text,
                    done := match d with
                      | some d => Cell.int d
                      | none => r.done } := by
  simp only [sqlSelectById, sqlUpdate, List.find?_map]
  have hcomp : ((fun x : Row => x.id == r.id) ∘ fun x : Row =>
      if (x.id == r.id) = true then
        { x with text := match t with
                   | some t => Cell.text t
                   | none => x.text,
                 done := match d with
                   | some d => Cell.int d
                   | none => x.done }
      else x) = fun x : Row => x.id == r.id := by
    funext x
    simp only [Function.comp]
    split_ifs <;> rfl
  rw [hcomp, find_of_pairwise db.rows r hwf.1 hr]
  simp

/-- The object `row_to_json` builds for a table row. -/
theorem row_to_json_cells (r : Row) :
    ∃ j : Item, row_to_json r.cells = some j ∧ j.id = toInt32 r.id ∧ j.created_at = none ∧
      (∀ s, r.text = Cell.text s → j.text = s) ∧
      (∀ n, r.done = Cell.int n → j.done = (toInt32 n != 0)) ∧
      (∀ (c : Cell), row_to_json (Row.cells { r with done := c }) =
        some { j with done :=
          match c with
          | Cell.int n => toInt32 n != 0
          | Cell.text (c :: _) => c == '1' || c == 't' || c == 'T' || c == 'y' || c == 'Y'
          | _ => false }) ∧
      (∀ (s : CStr), row_to_json (Row.cells { r with text := Cell.text s }) =
        some { j with text := s }) := by
  obtain ⟨id, t, d⟩ := r
  refine ⟨_, rfl, rfl, rfl, ?_, ?_, ?_, ?_⟩
  · intro s hs
    simp only at hs
    subst hs
    rfl
  · intro n hn
    simp only at hn
    subst hn
    rfl
  · intro c
    cases c with
    | null => rfl
    | int n => rfl
    | text s =>
      cases s with
      | nil => rfl
      | cons c cs => rfl
  · intro s
    rfl

/-- C3: in a store that contains the item `r`, `db_update(r.id, NULL, 1)` returns that
item with `done = true` and everything else (its text included) as before, and
`db_update(r.id, t, -1)` returns it with text `t` and everything else (its done
included) as before; in both cases the only stored row that changes is the one with
this id, and only in the assigned column. -/
theorem db_update_partial (db : Store) (r : Row) (t : CStr) (hwf : db.WF)
    (hr : r ∈ db.rows) :
    ∃ old : Item, row_to_json r.cells = some old ∧
      db_update Engine.ok r.id none 1 db =
        (0, some { old with done := true },
          ⟨db.rows.map (fun x => if x.id = r.id then { x with done := Cell.int 1 } else x),
            db.seq⟩) ∧
      db_update Engine.ok r.id (some t) (-1) db =
        (0, some { old with text := t },
          ⟨db.rows.map (fun x => if x.id = r.id then { x with text := Cell.text t } else x),
            db.seq⟩) ∧
      (∀ x, x.id ≠ r.id →
        (x ∈ (db_update Engine.ok r.id none 1 db).2.2.rows ↔ x ∈ db.rows) ∧
        (x ∈ (db_update Engine.ok r.id (some t) (-1) db).2.2.rows ↔ x ∈ db.rows)) := by
  obtain ⟨old, hold, -, -, -, -, hdone, htext⟩ := row_to_json_cells r
  have hok0 : Engine.ok.prepare_ok 0 = true := rfl
  have hok1 : Engine.ok.prepare_ok 1 = true := rfl
  have hok2 : Engine.ok.stepDone 0 = true := rfl
  have hok3 : Engine.ok.stepDone 1 = true := rfl
  have e1 : db_update Engine.ok r.id none 1 db =
      (0, some { old with done := true },
        ⟨db.rows.map (fun x => if x.id = r.id then { x with done := Cell.int 1 } else x),
          db.seq⟩) := by
    unfold db_update
    simp only [Option.isSome_none, Bool.false_and, Bool.false_eq_true, if_false,
      show ((1 : Int) == 0 || (1 : Int) == 1) = true from rfl, if_true, hok0, hok1, hok2,
      hok3, Bool.not_true, sqlSelectById_sqlUpdate db r none (some 1) hwf hr]
    have := hdone (Cell.int 1)
    simp only [show (toInt32 1 != 0) = true from by decide] at this
    rw [this]
    simp [sqlUpdate]
  have e2 : db_update Engine.ok r.id (some t) (-1) db =
      (0, some { old with text := t },
        ⟨db.rows.map (fun x => if x.id = r.id then { x with text := Cell.text t } else x),
          db.seq⟩) := by
    unfold db_update
    simp only [Option.isSome_some, Bool.true_and,
      show ((-1 : Int) == 0 || (-1 : Int) == 1) = false from rfl, Bool.false_eq_true,
      if_false, if_true, hok0, hok1, hok2,
      hok3, Bool.not_true, sqlSelectById_sqlUpdate db r (some t) none hwf hr]
    rw [htext t]
    simp [sqlUpdate]
  refine ⟨old, hold, e1, e2, ?_⟩
  intro x hx
  rw [e1, e2]
  simp only [List.mem_map]
  constructor <;> constructor
  · rintro ⟨y, hy, rfl⟩
    by_cases h : y.id = r.id
    · simp [h] at hx
    · simpa [h] using hy
  · intro h
    exact ⟨x, h, by simp [hx]⟩
  · rintro ⟨y, hy, rfl⟩
    by_cases h : y.id = r.id
    · simp [h] at hx
    · simpa [h] using hy
  · intro h
    exact ⟨x, h, by simp [hx]⟩

/-- Instance of C3: item 1 of a two-item store. -/
theorem db_update_partial_witness :
    Store.WF ⟨[⟨1, Cell.text "a".toList, Cell.int 0⟩,
      ⟨2, Cell.text "b".toList, Cell.int 1⟩], 2⟩ ∧
    ∃ old : Item,
      row_to_json (Row.cells ⟨1, Cell.text "a".toList, Cell.int 0⟩) = some old ∧
      db_update Engine.ok 1 none 1
          ⟨[⟨1, Cell.text "a".toList, Cell.int 0⟩, ⟨2, Cell.text "b".toList, Cell.int 1⟩], 2⟩
        = (0, some { old with done := true },
          ⟨[⟨1, Cell.text "a".toList, Cell.int 1⟩, ⟨2, Cell.text "b".toList, Cell.int 1⟩], 2⟩) :=
  ⟨by decide,
    match db_update_partial
      ⟨[⟨1, Cell.text "a".toList, Cell.int 0⟩, ⟨2, Cell.text "b".toList, Cell.int 1⟩], 2⟩
      ⟨1, Cell.text "a".toList, Cell.int 0⟩ "c".toList (by decide) (by decide) with
    | ⟨old, h1, h2, _, _⟩ => ⟨old, h1, h2⟩⟩

/-! ## Create, then list -/

theorem maxRowid_spec (rows : List Row) :
    (rows = [] ∧ maxRowid rows = none) ∨
    (∃ m, maxRowid rows = some m ∧ ∀ r ∈ rows, r.id ≤ m) := by
  induction rows with
  | nil => exact Or.inl ⟨rfl, rfl⟩
  | cons x xs ih =>
    right
    rcases ih with ⟨hnil, hnone⟩ | ⟨m, hm, hle⟩
    · subst hnil
      exact ⟨x.id, by simp [maxRowid], by simp⟩
    · refine ⟨max x.id m, by simp [maxRowid, hm], ?_⟩
      intro r hr
      rcases List.mem_cons.mp hr with h | h
      · subst h
        exact le_max_left _ _
      · exact le_trans (hle r h) (le_max_right _ _)

/-- While the counter and every stored rowid are below `INT_MAX`, the next
AUTOINCREMENT rowid exists, is positive, fits an `int`, and exceeds the counter and
every stored rowid. -/
theorem nextRowid_spec (db : Store) (h0 : 0 ≤ db.seq) (hseq : db.seq < INT_MAX)
    (hids : ∀ r ∈ db.rows, r.id < INT_MAX) :
    ∃ rid, nextRowid db = some rid ∧ 0 < rid ∧ rid ≤ INT_MAX ∧ db.seq < rid ∧
      ∀ r ∈ db.rows, r.id < rid := by
  unfold INT_MAX at hseq hids ⊢
  rcases maxRowid_spec db.rows with ⟨hnil, hnone⟩ | ⟨m, hm, hle⟩
  · refine ⟨max 1 (db.seq + 1), ?_, ?_, ?_, ?_, ?_⟩
    · simp only [nextRowid, hnone, Option.getD_none, LONG_MAX]
      rw [if_neg]
      omega
    · simp only [max_def]; split_ifs <;> omega
    · simp only [max_def]; split_ifs <;> omega
    · simp only [max_def]; split_ifs <;> omega
    · simp [hnil]
  · have hmem : ∃ r ∈ db.rows, r.id = m := by
      have : ∀ (l : List Row) (k : Int), maxRowid l = some k → ∃ r ∈ l, r.id = k := by
        intro l
        induction l with
        | nil => intro k hk; simp [maxRowid] at hk
        | cons x xs ih =>
          intro k hk
          simp only [maxRowid] at hk
          cases hxs : maxRowid xs with
          | none =>
            simp only [hxs, Option.some.injEq] at hk
            exact ⟨x, List.mem_cons_self _ _, hk⟩
          | some k2 =>
            simp only [hxs, Option.some.injEq] at hk
            obtain ⟨r, hr, hrk⟩ := ih k2 hxs
            by_cases hc : x.id ≤ k2
            · rw [max_eq_right hc] at hk
              exact ⟨r, List.mem_cons_of_mem _ hr, by omega⟩
            · rw [max_eq_left (by omega)] at hk
              exact ⟨x, List.mem_cons_self _ _, hk⟩
      exact this db.rows m hm
    obtain ⟨r0, hr0, hr0m⟩ := hmem
    have hmlt : m < 2147483647 := by
      have := hids r0 hr0
      omega
    refine ⟨max (m + 1) (db.seq + 1), ?_, ?_, ?_, ?_, ?_⟩
    · simp only [nextRowid, hm, Option.getD_some, LONG_MAX]
      rw [if_neg]
      omega
    · simp only [max_def]; split_ifs <;> omega
    · simp only [max_def]; split_ifs <;> omega
    · simp only [max_def]; split_ifs <;> omega
    · intro r hr
      have := hle r hr
      simp only [max_def]; split_ifs <;> omega

theorem insertRow_last (r : Row) (rows : List Row) (h : ∀ x ∈ rows, x.id < r.id) :
    insertRow r rows = rows ++ [r] := by
  induction rows with
  | nil => rfl
  | cons x xs ih =>
    have hx : ¬ r.id < x.id := by
      have := h x (List.mem_cons_self _ _)
      omega
    simp only [insertRow, hx, if_false, List.cons_append]
    rw [ih (fun y hy => h y (List.mem_cons_of_mem _ hy))]

/-- On rows held in rowid order, `ORDER BY id ASC` is the stored order. -/
theorem insertionSort_of_pairwise (rows : List Row)
    (h : rows.Pairwise (fun a b => a.id < b.id)) :
    rows.insertionSort (fun a b => a.id ≤ b.id) = rows := by
  apply List.Sorted.insertionSort_eq
  exact List.Pairwise.imp (fun hab => le_of_lt hab) h

/-- C1 as the claim states it fails: on the (empty) store whose AUTOINCREMENT counter
is `INT_MAX`, the insert succeeds with rowid 2147483648, the conversion
`(int)sqlite3_last_insert_rowid` yields -2147483648, the read-back finds no row and
`db_create` returns 4 without an item. -/
theorem db_create_rowid_beyond_int :
    Store.WF ⟨[], 2147483647⟩ ∧
    db_create Engine.ok (some "buy milk".toList) ⟨[], 2147483647⟩
      = (4, none, ⟨[⟨2147483648, Cell.text "buy milk".toList, Cell.int 0⟩], 2147483648⟩) := by
  decide

/-- C1, amended: for every text and every store whose counter and rowids are below
`INT_MAX`, on an engine whose statements complete, `db_create(text)` returns 0 with an
item carrying the supplied text, `done = false` and a positive id, having appended the
row to the table; a following `db_list_paged` whose page covers the whole table (offset
`≤ 0`, effective limit at least the number of rows) contains that item with exactly
those fields, and when the store was empty the list is exactly that one item. -/
theorem db_create_roundtrip (text : CStr) (db : Store) (hwf : db.WF)
    (hseq : db.seq < INT_MAX) (hids : ∀ r ∈ db.rows, r.id < INT_MAX) :
    ∃ (id : Int) (db1 : Store),
      db_create Engine.ok (some text) db = (0, some ⟨id, text, false, none⟩, db1) ∧
      0 < id ∧ id ≤ INT_MAX ∧ (∀ r ∈ db.rows, r.id ≠ id) ∧
      db1.rows = db.rows ++ [⟨id, Cell.text text, Cell.int 0⟩] ∧ db1.WF ∧
      ∀ limit offset : Int, offset ≤ 0 →
        (db1.rows.length : Int) ≤ (pageBounds limit offset).1 →
        ∃ arr, db_list_paged Engine.ok limit offset db1 = (0, some arr) ∧
          (⟨id, text, false, none⟩ : Item) ∈ arr ∧
          (db.rows = [] → arr = [⟨id, text, false, none⟩]) := by
  obtain ⟨rid, hnext, hpos, hfit, hseqlt, hlt⟩ := nextRowid_spec db hwf.2 hseq hids
  have hok0 : Engine.ok.prepare_ok 0 = true := rfl
  have hok1 : Engine.ok.prepare_ok 1 = true := rfl
  have hok2 : Engine.ok.stepDone 0 = true := rfl
  have hok3 : Engine.ok.stepDone 1 = true := rfl
  have hvis : ∀ rs, Engine.ok.visited 0 rs = rs := fun _ => rfl
  have h32 : toInt32 rid = rid := by
    apply toInt32_of_range
    · unfold INT_MIN; omega
    · exact hfit
  let new : Row := ⟨rid, Cell.text text, Cell.int 0⟩
  have hins : sqlInsert db text = some (⟨db.rows ++ [new], rid⟩, rid) := by
    simp only [sqlInsert, hnext]
    rw [insertRow_last _ _ (fun x hx => hlt x hx)]
  have hpw : (db.rows ++ [new]).Pairwise (fun a b => a.id < b.id) := by
    rw [List.pairwise_append]
    refine ⟨hwf.1, List.pairwise_singleton _ _, ?_⟩
    intro a ha b hb
    rw [List.mem_singleton] at hb
    subst hb
    exact hlt a ha
  have hsel : sqlSelectById ⟨db.rows ++ [new], rid⟩ rid = some new :=
    find_of_pairwise (db.rows ++ [new]) new hpw (by simp)
  have hjson : row_to_json new.cells = some ⟨rid, text, false, none⟩ := by
    show some (⟨toInt32 rid, text, toInt32 0 != 0, none⟩ : Item) = _
    rw [h32]
    rfl
  have hpaged : paged_row_json new.cells = ⟨rid, text, false, none⟩ := by
    show (⟨toInt32 rid, text, toInt32 0 != 0, none⟩ : Item) = _
    rw [h32]
    rfl
  refine ⟨rid, ⟨db.rows ++ [new], rid⟩, ?_, hpos, hfit, ?_, rfl, ⟨hpw, le_of_lt hpos⟩, ?_⟩
  · unfold db_create
    simp only [hok0, hok1, hok2, hok3, Bool.not_true, Bool.false_eq_true, if_false, if_true,
      Option.getD_some, hins, h32, hsel, hjson]
  · intro r hr
    have := hlt r hr
    omega
  · intro limit offset hoff hlen
    have hb2 : (pageBounds limit offset).2 = 0 := by
      simp only [pageBounds]
      split_ifs <;> omega
    have hsel2 : sqlSelectPaged ⟨db.rows ++ [new], rid⟩ (pageBounds limit offset).1
        (pageBounds limit offset).2 = db.rows ++ [new] := by
      simp only [sqlSelectPaged, hb2, insertionSort_of_pairwise _ hpw, Int.toNat_zero,
        List.drop_zero]
      have hnn : ¬ (pageBounds limit offset).1 < 0 := by
        have := (pageBounds_spec limit offset).2.2.2.2.2.1
        omega
      rw [if_neg hnn]
      apply List.take_of_length_le
      have : ((db.rows ++ [new]).length : Int) ≤ (pageBounds limit offset).1 := hlen
      omega
    refine ⟨(db.rows ++ [new]).map (fun r => paged_row_json r.cells), ?_, ?_, ?_⟩
    · unfold db_list_paged
      simp only [hok0, Bool.not_true, Bool.false_eq_true, if_false, hvis, hsel2]
    · rw [List.mem_map]
      exact ⟨new, by simp, hpaged⟩
    · intro hnil
      rw [hnil]
      simp only [List.nil_append, List.map_cons, List.map_nil, hpaged]

/-- Instance of C1: creating "buy milk" on the fresh store. -/
theorem db_create_roundtrip_witness :
    Store.WF ⟨[], 0⟩ ∧
    ∃ (id : Int) (db1 : Store),
      db_create Engine.ok (some "buy milk".toList) ⟨[], 0⟩
        = (0, some ⟨id, "buy milk".toList, false, none⟩, db1) ∧ 0 < id :=
  ⟨by decide,
    match db_create_roundtrip "buy milk".toList ⟨[], 0⟩ (by decide) (by decide)
      (by intro r hr; cases hr) with
    | ⟨id, db1, h1, h2, _⟩ => ⟨id, db1, h1, h2⟩⟩

/-! ## Identifier parsing -/

theorem isdigit_iff (c : Char) : isdigit c = true ↔ 48 ≤ c.toNat ∧ c.toNat ≤ 57 := by
  simp only [isdigit, Bool.and_eq_true, decide_eq_true_eq, Char.le_def, Char.toNat]
  rfl

theorem isspace_of_isdigit (c : Char) (h : isdigit c = true) : isspace c = false := by
  rw [isdigit_iff] at h
  have hne : ∀ d : Char, d.toNat < 48 → (c == d) = false := by
    intro d hd
    rw [beq_eq_false_iff_ne]
    intro hcd
    rw [hcd] at h
    omega
  simp only [isspace, Bool.or_eq_false_iff]
  refine ⟨⟨⟨⟨⟨?_, ?_⟩, ?_⟩, ?_⟩, ?_⟩, ?_⟩ <;> apply hne <;> decide

theorem decimalValue_cons (c : Char) (cs : CStr) :
    decimalValue (c :: cs) = digitVal c * 10 ^ cs.length + decimalValue cs := by
  simp only [decimalValue, List.reverse_cons, List.map_append, List.map_cons, List.map_nil,
    Nat.ofDigits_append, Nat.ofDigits_singleton, List.length_map, List.length_reverse]
  ring

/-- On a run of digits followed by the end or by a non-digit, `parseDigits` computes the
number the run denotes. -/
theorem parseDigits_digits (s rest : CStr) (acc : Nat) (hs : ∀ c ∈ s, isdigit c = true)
    (hrest : ∀ c r, rest = c :: r → isdigit c = false) :
    parseDigits acc (s ++ rest) = acc * 10 ^ s.length + decimalValue s := by
  induction s generalizing acc with
  | nil =>
    simp only [List.nil_append, List.length_nil, pow_zero, mul_one, decimalValue,
      List.reverse_nil, List.map_nil, Nat.ofDigits_nil, add_zero]
    cases rest with
    | nil => rfl
    | cons c r => simp [parseDigits, hrest c r rfl]
  | cons x xs ih =>
    have hx : isdigit x = true := hs x (List.mem_cons_self _ _)
    have hstep : parseDigits acc ((x :: xs) ++ rest)
        = parseDigits (acc * 10 + digitVal x) (xs ++ rest) := by
      show (if isdigit x = true then parseDigits (acc * 10 + digitVal x) (xs ++ rest)
        else acc) = _
      rw [if_pos hx]
    rw [hstep, ih _ (fun c hc => hs c (List.mem_cons_of_mem _ hc)), decimalValue_cons]
    simp only [List.length_cons]
    ring

/-- Function `atoi` on a non-empty run of digits (followed by the end or a non-digit)
that denotes a value of at most `INT_MAX` returns that value. -/
theorem atoi_digits (s rest : CStr) (hne : s ≠ []) (hs : ∀ c ∈ s, isdigit c = true)
    (hrest : ∀ c r, rest = c :: r → isdigit c = false)
    (hfit : (decimalValue s : Int) ≤ INT_MAX) :
    atoi (s ++ rest) = decimalValue s := by
  cases s with
  | nil => exact absurd rfl hne
  | cons x xs =>
    have hx : isdigit x = true := hs x (List.mem_cons_self _ _)
    have hsp : isspace x = false := isspace_of_isdigit x hx
    have hx2 := (isdigit_iff x).mp hx
    have hm : x ≠ '-' := by
      intro h
      rw [h] at hx2
      exact absurd hx2.1 (by decide)
    have hp : x ≠ '+' := by
      intro h
      rw [h] at hx2
      exact absurd hx2.1 (by decide)
    have hpd := parseDigits_digits (x :: xs) rest 0 hs hrest
    simp only [zero_mul, zero_add] at hpd
    have hst : strtol ((x :: xs) ++ rest) = sat64 (parseDigits 0 ((x :: xs) ++ rest)) := by
      unfold strtol
      simp only [List.cons_append, List.dropWhile_cons, hsp]
      split
      · rename_i r heq
        simp only [Bool.false_eq_true, if_false, List.cons.injEq] at heq
        exact absurd heq.1 hm
      · rename_i r heq
        simp only [Bool.false_eq_true, if_false, List.cons.injEq] at heq
        exact absurd heq.1 hp
      · simp
    unfold atoi
    rw [hst, hpd]
    unfold INT_MAX at hfit
    have hnn : (0 : Int) ≤ (decimalValue (x :: xs) : Int) := Int.ofNat_nonneg _
    have h64 : sat64 (decimalValue (x :: xs) : Int) = decimalValue (x :: xs) := by
      unfold sat64 LONG_MAX LONG_MIN
      split_ifs <;> omega
    rw [h64]
    apply toInt32_of_range
    · unfold INT_MIN; omega
    · unfold INT_MAX; exact hfit

/-- Function `atoi` on a string that starts with `/` is 0. -/
theorem atoi_slash (r : CStr) : atoi ('/' :: r) = 0 := by
  have h1 : isspace '/' = false := by decide
  have h2 : isdigit '/' = false := by decide
  have h3 : strtol ('/' :: r) = sat64 (parseDigits 0 ('/' :: r)) := by
    unfold strtol
    simp only [List.dropWhile_cons, h1, Bool.false_eq_true, if_false]
    split
    · rename_i heq
      exact absurd (List.cons.inj heq).1 (by decide)
    · rename_i heq
      exact absurd (List.cons.inj heq).1 (by decide)
    · rfl
  have h4 : parseDigits 0 ('/' :: r) = 0 := by
    show (if isdigit '/' = true then _ else 0) = 0
    rw [h2]
    rfl
  unfold atoi
  rw [h3, h4]
  decide

theorem dropWhile_isdigit_append (s rest : CStr) (hs : ∀ c ∈ s, isdigit c = true)
    (hrest : ∀ c r, rest = c :: r → isdigit c = false) :
    (s ++ rest).dropWhile isdigit = rest := by
  induction s with
  | nil =>
    cases rest with
    | nil => rfl
    | cons c r => simp [List.dropWhile_cons, hrest c r rfl]
  | cons x xs ih =>
    have hx : isdigit x = true := hs x (List.mem_cons_self _ _)
    simp only [List.cons_append, List.dropWhile_cons, hx, if_true]
    exact ih (fun c hc => hs c (List.mem_cons_of_mem _ hc))

/-- The text from the first `/` on is empty or starts with `/`. -/
theorem dropWhile_ne_slash (p : CStr) :
    p.dropWhile (fun c => c != '/') = [] ∨
    ∃ r, p.dropWhile (fun c => c != '/') = '/' :: r := by
  induction p with
  | nil => exact Or.inl rfl
  | cons x xs ih =>
    by_cases hx : x = '/'
    · right
      subst hx
      exact ⟨xs, by simp [List.dropWhile_cons]⟩
    · have : (x != '/') = true := by simpa using hx
      simp only [List.dropWhile_cons, this, if_true]
      exact ih

/-- When the part before the first `/` holds a non-digit, the scan over the leading
digits stops at a character other than `/`. -/
theorem dropWhile_isdigit_of_bad_segment (p : CStr)
    (h : ∃ c ∈ p.takeWhile (fun c => c != '/'), isdigit c = false) :
    ∃ c r, p.dropWhile isdigit = c :: r ∧ c ≠ '/' := by
  induction p with
  | nil => simp at h
  | cons x xs ih =>
    by_cases hx : x = '/'
    · subst hx
      simp [List.takeWhile_cons] at h
    · have hne : (x != '/') = true := by simpa using hx
      simp only [List.takeWhile_cons, hne, if_true, List.mem_cons] at h
      obtain ⟨c, hc, hcd⟩ := h
      cases hd : isdigit x with
      | false =>
        exact ⟨x, xs, by simp [List.dropWhile_cons, hd], hx⟩
      | true =>
        simp only [List.dropWhile_cons, hd, if_true]
        apply ih
        rcases hc with hc | hc
        · rw [hc, hd] at hcd
          cases hcd
        · exact ⟨c, hc, hcd⟩

theorem parse_id_tail_bad (p : CStr)
    (h : p.takeWhile (fun c => c != '/') = [] ∨
      ∃ c ∈ p.takeWhile (fun c => c != '/'), isdigit c = false) :
    parse_id_tail p ≤ 0 := by
  cases p with
  | nil => simp [parse_id_tail]
  | cons x xs =>
    rcases h with h | h
    · have hx : x = '/' := by
        by_contra hne
        have : (x != '/') = true := by simpa using hne
        simp [List.takeWhile_cons, this] at h
      subst hx
      have hd : isdigit '/' = false := by decide
      simp only [parse_id_tail, List.dropWhile_cons, hd, Bool.false_eq_true, if_false,
        atoi_slash]
      exact le_refl _
    · obtain ⟨c, r, hcr, hc⟩ := dropWhile_isdigit_of_bad_segment (x :: xs) h
      simp only [parse_id_tail]
      rw [hcr]
      split
      · rename_i heq
        cases heq
      · rename_i heq
        exact absurd (List.cons.inj heq).1 hc
      · decide

theorem parse_id_tail_digits (p : CStr) (hne : p.takeWhile (fun c => c != '/') ≠ [])
    (hs : ∀ c ∈ p.takeWhile (fun c => c != '/'), isdigit c = true)
    (hfit : (decimalValue (p.takeWhile (fun c => c != '/')) : Int) ≤ INT_MAX) :
    parse_id_tail p = decimalValue (p.takeWhile (fun c => c != '/')) := by
  have hsplit : p.takeWhile (fun c => c != '/') ++ p.dropWhile (fun c => c != '/') = p :=
    List.takeWhile_append_dropWhile _ _
  have hrest : ∀ c r, p.dropWhile (fun c => c != '/') = c :: r → isdigit c = false := by
    intro c r hcr
    rcases dropWhile_ne_slash p with h | ⟨r2, h⟩
    · rw [h] at hcr
      cases hcr
    · rw [h] at hcr
      rw [← (List.cons.inj hcr).1]
      decide
  have hdw := dropWhile_isdigit_append _ _ hs hrest
  have hat := atoi_digits _ _ hne hs hrest hfit
  rw [hsplit] at hdw hat
  cases p with
  | nil => simp at hne
  | cons x xs =>
    simp only [parse_id_tail]
    rw [hdw]
    rcases dropWhile_ne_slash (x :: xs) with h | ⟨r2, h⟩
    · rw [h]
      exact hat
    · rw [h]
      exact hat

/-- C7 as the claim states it fails: with no route-bound parameter, the remainders
`12/` and `12/abc` of the path contain non-digit characters and are parsed as 12, so
`h_delete_todo` goes on to `db_delete`; and the all-digit parameter `4294967297` is not
parsed as the number it denotes. -/
theorem parse_id_accepts_trailing_path :
    parse_id_from_request ⟨none, some "/api/todos/12/".toList, none, none⟩ = 12 ∧
    parse_id_from_request ⟨none, some "/api/todos/12/abc".toList, none, none⟩ = 12 ∧
    (h_delete_todo Engine.ok ⟨none, some "/api/todos/12/abc".toList, none, none⟩
      ⟨[⟨12, Cell.text "a".toList, Cell.int 0⟩], 12⟩)
      = (⟨200, Body.status "deleted"⟩, ⟨[], 12⟩) ∧
    parse_id_from_request ⟨some "4294967297".toList, none, none, none⟩ = 1 := by
  decide

/-- How `parse_id_from_request` relates to the id segment. -/
theorem parse_id_cases (req : Request) :
    (idSegment req = none ∧ parse_id_from_request req = -1) ∨
    (∃ c cs, idSegment req = some (c :: cs) ∧ req.map_url_id = some (c :: cs) ∧
      parse_id_from_request req = if (c :: cs).all isdigit then atoi (c :: cs) else -1) ∨
    (∃ p, idSegment req = some (p.takeWhile (fun c => c != '/')) ∧
      parse_id_from_request req = parse_id_tail p) := by
  obtain ⟨mid, up, hu, body⟩ := req
  have hlen : ("/api/todos/".toList : CStr).length = 11 := by decide
  have fallback : ∀ m : Option CStr, (m = none ∨ m = some []) →
      (idSegment ⟨m, up, hu, body⟩ = none ∧
        parse_id_from_request ⟨m, up, hu, body⟩ = -1) ∨
      (∃ p, idSegment ⟨m, up, hu, body⟩ = some (p.takeWhile (fun c => c != '/')) ∧
        parse_id_from_request ⟨m, up, hu, body⟩ = parse_id_tail p) := by
    intro m hm
    have key : ∀ path? : Option CStr,
        ((match path? with
          | none => (none : Option CStr)
          | some path =>
            if "/api/todos/".toList.isPrefixOf path then
              some ((path.drop 11).takeWhile (fun c => c != '/'))
            else none) = none ∧
         (match path? with
          | none => (-1 : Int)
          | some path =>
            if !("/api/todos/".toList : CStr).isPrefixOf path then -1 else
            parse_id_tail (path.drop ("/api/todos/".toList : CStr).length)) = -1) ∨
        (∃ p, (match path? with
          | none => (none : Option CStr)
          | some path =>
            if "/api/todos/".toList.isPrefixOf path then
              some ((path.drop 11).takeWhile (fun c => c != '/'))
            else none) = some (p.takeWhile (fun c => c != '/')) ∧
         (match path? with
          | none => (-1 : Int)
          | some path =>
            if !("/api/todos/".toList : CStr).isPrefixOf path then -1 else
            parse_id_tail (path.drop ("/api/todos/".toList : CStr).length))
           = parse_id_tail p) := by
      intro path?
      cases path? with
      | none => exact Or.inl ⟨rfl, rfl⟩
      | some path =>
        cases hpre : ("/api/todos/".toList : CStr).isPrefixOf path with
        | false =>
          exact Or.inl ⟨by simp only [hpre, Bool.false_eq_true, if_false],
            by simp only [hpre, Bool.not_false, if_true]⟩
        | true =>
          right
          refine ⟨path.drop 11, by simp only [hpre, if_true], ?_⟩
          simp only [hpre, Bool.not_true, Bool.false_eq_true, if_false, hlen]
    rcases hm with hm | hm <;> subst hm <;>
      exact key (match up with
           | some p => some p
           | none => hu)
  cases mid with
  | none => exact (fallback none (Or.inl rfl)).elim Or.inl (fun h => Or.inr (Or.inr h))
  | some m =>
    cases m with
    | nil => exact (fallback (some []) (Or.inr rfl)).elim Or.inl (fun h => Or.inr (Or.inr h))
    | cons c cs => exact Or.inr (Or.inl ⟨c, cs, rfl, rfl, rfl⟩)

/-- C7, amended: when the request has no id segment, or the id segment (the route-bound
parameter, or without one the part of the path after `/api/todos/` up to its next `/`;
what follows that `/` is ignored) is empty or contains a non-digit character, or is
all-digit and denotes 0, `parse_id_from_request` yields a value `≤ 0`; whenever it
yields a value `≤ 0`, `h_put_todo` and `h_delete_todo` respond 400 and leave the store
alone whatever the engine would do; and for a non-empty all-digit id segment that
denotes a value of at most `INT_MAX` the parsed value is the decimal number it
denotes. -/
theorem parse_id_validation (req : Request) :
    (idSegment req = none → parse_id_from_request req = -1) ∧
    (∀ s, idSegment req = some s →
      ((s = [] ∨ ∃ c ∈ s, isdigit c = false) → parse_id_from_request req ≤ 0) ∧
      (s ≠ [] → (∀ c ∈ s, isdigit c = true) → (decimalValue s : Int) ≤ INT_MAX →
        parse_id_from_request req = decimalValue s) ∧
      (s ≠ [] → (∀ c ∈ s, isdigit c = true) → decimalValue s = 0 →
        parse_id_from_request req ≤ 0)) ∧
    (parse_id_from_request req ≤ 0 → ∀ (env : Engine) (db : Store),
      h_put_todo env req db = (⟨400, Body.error "invalid id"⟩, db) ∧
      h_delete_todo env req db = (⟨400, Body.error "invalid id"⟩, db)) := by
  have hval : ∀ s, idSegment req = some s → s ≠ [] → (∀ c ∈ s, isdigit c = true) →
      (decimalValue s : Int) ≤ INT_MAX → parse_id_from_request req = decimalValue s := by
    intro s hs hne hdig hfit
    rcases parse_id_cases req with ⟨hnone, -⟩ | ⟨c, cs, hseg, -, hp⟩ | ⟨p, hseg, hp⟩
    · rw [hnone] at hs
      cases hs
    · rw [hseg] at hs
      cases hs
      have hall : (c :: cs).all isdigit = true := by
        rw [List.all_eq_true]
        exact hdig
      rw [hp, hall, if_pos rfl]
      have := atoi_digits (c :: cs) [] hne hdig (fun _ _ h => by cases h) hfit
      simpa using this
    · rw [hseg] at hs
      cases hs
      rw [hp]
      exact parse_id_tail_digits p hne hdig hfit
  refine ⟨?_, ?_, ?_⟩
  · intro h
    rcases parse_id_cases req with ⟨-, hp⟩ | ⟨c, cs, hseg, -, -⟩ | ⟨p, hseg, -⟩
    · exact hp
    · rw [hseg] at h
      cases h
    · rw [hseg] at h
      cases h
  · intro s hs
    refine ⟨?_, hval s hs, ?_⟩
    · intro hbad
      rcases parse_id_cases req with ⟨hnone, -⟩ | ⟨c, cs, hseg, -, hp⟩ | ⟨p, hseg, hp⟩
      · rw [hnone] at hs
        cases hs
      · rw [hseg] at hs
        cases hs
        rcases hbad with h | ⟨d, hd, hdd⟩
        · cases h
        · have hall : (c :: cs).all isdigit = false := by
            rw [List.all_eq_false]
            exact ⟨d, hd, by simp [hdd]⟩
          rw [hp, hall]
          simp
      · rw [hseg] at hs
        cases hs
        rw [hp]
        exact parse_id_tail_bad p hbad
    · intro hne hdig hzero
      have hfit : (decimalValue s : Int) ≤ INT_MAX := by
        rw [hzero]
        decide
      rw [hval s hs hne hdig hfit, hzero]
      decide
  · intro hle env db
    simp [h_put_todo, h_delete_todo, hle, send_error_json, send_json]

/-! ## Query parameters -/

theorem strchr_eq_dropWhile (s : CStr) (c : Char) :
    strchr s c = match s.dropWhile (fun d => d != c) with
      | [] => none
      | l => some l := by
  induction s with
  | nil => rfl
  | cons x xs ih =>
    by_cases hx : x = c
    · subst hx
      simp [strchr, List.dropWhile_cons]
    · have hne : (x != c) = true := by simpa using hx
      simp only [strchr, hx, if_false, List.dropWhile_cons, hne, if_true]
      exact ih

theorem splitAmp_eq (q : CStr) :
    splitAmp q = q.takeWhile (fun c => c != '&') ::
      (match q.dropWhile (fun c => c != '&') with
       | [] => []
       | _ :: r => splitAmp r) := by
  induction q with
  | nil => rfl
  | cons x xs ih =>
    by_cases hx : x = '&'
    · subst hx
      simp [splitAmp, List.takeWhile_cons, List.dropWhile_cons]
    · have hne : (x != '&') = true := by simpa using hx
      simp only [splitAmp, hx, if_false, List.takeWhile_cons, List.dropWhile_cons, hne,
        if_true]
      rw [ih]

theorem parseDigits_append_amp (v r : CStr) (acc : Nat) :
    parseDigits acc (v ++ '&' :: r) = parseDigits acc v := by
  induction v generalizing acc with
  | nil =>
    have h : isdigit '&' = false := by decide
    show (if isdigit '&' = true then _ else acc) = acc
    rw [h]
    rfl
  | cons x xs ih =>
    show (if isdigit x = true then parseDigits (acc * 10 + digitVal x) (xs ++ '&' :: r)
      else acc) = (if isdigit x = true then parseDigits (acc * 10 + digitVal x) xs else acc)
    rw [ih]

/-- Function `atoi` does not read past a `&`. -/
theorem atoi_append_amp (v r : CStr) : atoi (v ++ '&' :: r) = atoi v := by
  have hsp : isspace '&' = false := by decide
  have hst : strtol (v ++ '&' :: r) = strtol v := by
    induction v with
    | nil =>
      have h0 : parseDigits 0 ('&' :: r) = 0 := parseDigits_append_amp [] r 0
      unfold strtol
      simp only [List.nil_append, List.dropWhile_cons, hsp, Bool.false_eq_true, if_false,
        List.dropWhile_nil]
      split
      · rename_i heq
        exact absurd (List.cons.inj heq).1 (by decide)
      · rename_i heq
        exact absurd (List.cons.inj heq).1 (by decide)
      · rw [h0]
        rfl
    | cons x xs ih =>
      cases hx : isspace x with
      | true =>
        have e1 : strtol ((x :: xs) ++ '&' :: r) = strtol (xs ++ '&' :: r) := by
          unfold strtol
          simp only [List.cons_append, List.dropWhile_cons, hx, if_true]
        have e2 : strtol (x :: xs) = strtol xs := by
          unfold strtol
          simp only [List.dropWhile_cons, hx, if_true]
        rw [e1, e2, ih]
      | false =>
        unfold strtol
        simp only [List.cons_append, List.dropWhile_cons, hx, Bool.false_eq_true, if_false]
        by_cases hm : x = '-'
        · subst hm
          simp only [parseDigits_append_amp]
        · by_cases hp : x = '+'
          · subst hp
            simp only [parseDigits_append_amp]
          · have e3 : ∀ l : CStr, (match x :: l with
                | '-' :: r => sat64 (-(parseDigits 0 r : Int))
                | '+' :: r => sat64 (parseDigits 0 r)
                | r => sat64 (parseDigits 0 r)) = sat64 (parseDigits 0 (x :: l)) := by
              intro l
              split
              · rename_i heq
                exact absurd (List.cons.inj heq).1 hm
              · rename_i heq
                exact absurd (List.cons.inj heq).1 hp
              · rfl
            rw [e3, e3]
            have := parseDigits_append_amp (x :: xs) r 0
            simp only [List.cons_append] at this
            rw [this]
  unfold atoi
  rw [hst]

theorem isPrefixOf_key_eq (key q : CStr) :
    (key.isPrefixOf q && (q.drop key.length).head? == some '=')
      = (key ++ ['=']).isPrefixOf q := by
  induction key generalizing q with
  | nil =>
    cases q with
    | nil => rfl
    | cons c cs =>
      simp only [List.isPrefixOf, List.length_nil, List.drop_zero, List.head?_cons,
        List.nil_append, Bool.true_and, Bool.and_true]
      by_cases h : c = '=' <;> simp [h, eq_comm]
  | cons k ks ih =>
    cases q with
    | nil => rfl
    | cons c cs =>
      simp only [List.cons_append, List.isPrefixOf, List.length_cons, List.drop_succ_cons,
        Bool.and_assoc]
      rw [ih cs]
      rfl

theorem isPrefixOf_takeWhile (k q : CStr) (hk : ∀ c ∈ k, c ≠ '&') :
    k.isPrefixOf (q.takeWhile (fun c => c != '&')) = k.isPrefixOf q := by
  induction k generalizing q with
  | nil => simp [List.isPrefixOf]
  | cons a as ih =>
    have ha : a ≠ '&' := hk a (List.mem_cons_self _ _)
    cases q with
    | nil => rfl
    | cons c cs =>
      by_cases hc : c = '&'
      · subst hc
        have : (a == '&') = false := by simpa using ha
        simp [List.takeWhile_cons, List.isPrefixOf, this]
      · have hne : (c != '&') = true := by simpa using hc
        simp only [List.takeWhile_cons, hne, if_true, List.isPrefixOf]
        rw [ih cs (fun d hd => hk d (List.mem_cons_of_mem _ hd))]

theorem dropWhile_ne_amp (p : CStr) :
    p.dropWhile (fun c => c != '&') = [] ∨
    ∃ r, p.dropWhile (fun c => c != '&') = '&' :: r := by
  induction p with
  | nil => exact Or.inl rfl
  | cons x xs ih =>
    by_cases hx : x = '&'
    · right
      subst hx
      exact ⟨xs, by simp [List.dropWhile_cons]⟩
    · have : (x != '&') = true := by simpa using hx
      simp only [List.dropWhile_cons, this, if_true]
      exact ih

/-- The loop of `get_query_int`, given enough rounds, returns `atoi` of the value of the
first `&`-separated piece that starts with `key=`, and the default when there is none. -/
theorem get_query_loop_spec (key : CStr) (defv : Int) (hkey : ∀ c ∈ key, c ≠ '&') :
    ∀ (fuel : Nat) (q : CStr), q.length < fuel →
      get_query_loop key defv fuel q =
        match (splitAmp q).findSome? (fun seg =>
          if (key ++ ['=']).isPrefixOf seg then some (seg.drop (key.length + 1))
          else none) with
        | none => defv
        | some v => atoi v := by
  have hk : ∀ c ∈ key ++ ['='], c ≠ '&' := by
    intro c hc
    rcases List.mem_append.mp hc with h | h
    · exact hkey c h
    · rw [List.mem_singleton] at h
      rw [h]
      decide
  intro fuel
  induction fuel with
  | zero => intro q hq; omega
  | succ n ih =>
    intro q hq
    cases q with
    | nil =>
      have : (key ++ ['=']).isPrefixOf ([] : CStr) = false := by
        cases key <;> rfl
      simp [get_query_loop, splitAmp, List.findSome?, this]
    | cons c cs =>
      have hsplit : (c :: cs).takeWhile (fun c => c != '&')
          ++ (c :: cs).dropWhile (fun c => c != '&') = c :: cs :=
        List.takeWhile_append_dropWhile _ _
      rw [splitAmp_eq (c :: cs), List.findSome?_cons]
      simp only [get_query_loop]
      rw [isPrefixOf_key_eq key (c :: cs), isPrefixOf_takeWhile _ (c :: cs) hk]
      cases hm : (key ++ ['=']).isPrefixOf (c :: cs) with
      | true =>
        simp only [if_true]
        have hpre : (key ++ ['=']) <+: (c :: cs).takeWhile (fun c => c != '&') := by
          rw [← List.isPrefixOf_iff_prefix, isPrefixOf_takeWhile _ (c :: cs) hk]
          exact hm
        have hlen : key.length + 1 ≤ ((c :: cs).takeWhile (fun c => c != '&')).length := by
          have := hpre.length_le
          simpa using this
        have hdrop : (c :: cs).drop (key.length + 1)
            = ((c :: cs).takeWhile (fun c => c != '&')).drop (key.length + 1)
              ++ (c :: cs).dropWhile (fun c => c != '&') := by
          conv_lhs => rw [← hsplit]
          exact List.drop_append_of_le_length hlen
        rw [hdrop]
        rcases dropWhile_ne_amp (c :: cs) with h | ⟨r, h⟩
        · rw [h, List.append_nil]
        · rw [h, atoi_append_amp]
      | false =>
        simp only [Bool.false_eq_true, if_false]
        rw [strchr_eq_dropWhile]
        rcases dropWhile_ne_amp (c :: cs) with h | ⟨r, h⟩
        · rw [h]
          rfl
        · rw [h]
          have hlt : r.length < n := by
            have := congrArg List.length hsplit
            rw [h] at this
            simp only [List.length_append, List.length_cons] at this hq
            omega
          simp only [List.drop_succ_cons, List.drop_zero]
          exact ih r hlt

/-- Function `get_query_int` returns `atoi` of the value of the parameter, and the
default when the parameter is missing. -/
theorem get_query_int_spec (url : Option CStr) (key : CStr) (defv : Int)
    (hkey : ∀ c ∈ key, c ≠ '&') :
    get_query_int url key defv =
      match queryParam url key with
      | none => defv
      | some v => atoi v := by
  cases url with
  | none => rfl
  | some u =>
    simp only [get_query_int, queryParam]
    rw [strchr_eq_dropWhile]
    cases h : u.dropWhile (fun d => d != '?') with
    | nil => rfl
    | cons x q =>
      simp only [List.drop_succ_cons, List.drop_zero, List.length_cons]
      exact get_query_loop_spec key defv hkey _ q (by omega)

theorem parseDigits_nondigit (c : Char) (r : CStr) (h : isdigit c = false) :
    parseDigits 0 (c :: r) = 0 := by
  show (if isdigit c = true then _ else 0) = 0
  rw [h]
  rfl

/-- A value that does not begin with a decimal integer is read as 0. -/
theorem atoi_of_not_startsWithInteger (v : CStr) (h : startsWithInteger v = false) :
    atoi v = 0 := by
  unfold startsWithInteger at h
  unfold atoi strtol
  generalize v.dropWhile isspace = w at h
  have hz : toInt32 (sat64 ((0 : Nat) : Int)) = 0 := by decide
  have hz2 : toInt32 (sat64 (-((0 : Nat) : Int))) = 0 := by decide
  cases w with
  | nil => exact hz
  | cons c r =>
    by_cases hm : c = '-'
    · subst hm
      cases r with
      | nil => exact hz2
      | cons d r2 =>
        simp only at h
        show toInt32 (sat64 (-(parseDigits 0 (d :: r2) : Int))) = 0
        rw [parseDigits_nondigit d r2 h]
        exact hz2
    · by_cases hp : c = '+'
      · subst hp
        cases r with
        | nil => exact hz
        | cons d r2 =>
          simp only at h
          show toInt32 (sat64 (parseDigits 0 (d :: r2) : Int)) = 0
          rw [parseDigits_nondigit d r2 h]
          exact hz
      · have hc : isdigit c = false := by
          revert h
          split
          · rename_i heq
            exact absurd (List.cons.inj heq).1 hm
          · rename_i heq
            exact absurd (List.cons.inj heq).1 hp
          · rename_i heq
            intro h
            rw [(List.cons.inj heq).1]
            exact h
          · rename_i heq
            cases heq
        have e3 : (match c :: r with
              | '-' :: r => sat64 (-(parseDigits 0 r : Int))
              | '+' :: r => sat64 (parseDigits 0 r)
              | r => sat64 (parseDigits 0 r)) = sat64 (parseDigits 0 (c :: r)) := by
          split
          · rename_i heq
            exact absurd (List.cons.inj heq).1 hm
          · rename_i heq
            exact absurd (List.cons.inj heq).1 hp
          · rfl
        rw [e3, parseDigits_nondigit c r hc]
        exact hz

/-- C8 as the claim states it fails: the values `1x` and `1y` are not well-formed
integers, yet `get_query_int` reads them as 1, and `h_get_todos` lists with limit 1 and
offset 1 (the second of three items) instead of the defaults 50 and 0. -/
theorem query_value_prefix_is_used :
    queryParam (some "/api/todos?limit=1x&offset=1y".toList) "limit".toList
      = some "1x".toList ∧
    queryParam (some "/api/todos?limit=1x&offset=1y".toList) "offset".toList
      = some "1y".toList ∧
    get_query_int (some "/api/todos?limit=1x&offset=1y".toList) "limit".toList 50 = 1 ∧
    get_query_int (some "/api/todos?limit=1x&offset=1y".toList) "offset".toList 0 = 1 ∧
    h_get_todos Engine.ok
      ⟨none, some "/api/todos".toList, some "/api/todos?limit=1x&offset=1y".toList, none⟩
      ⟨[⟨1, Cell.text "a".toList, Cell.int 0⟩, ⟨2, Cell.text "b".toList, Cell.int 0⟩,
        ⟨3, Cell.text "c".toList, Cell.int 0⟩], 3⟩
      = ⟨200, Body.items [⟨2, "b".toList, false, none⟩]⟩ := by
  decide

/-- C8, amended: `h_get_todos` lists with `effectiveLimit` and `effectiveOffset`. When
the `limit` parameter is missing from the query string, or its value does not begin
(after optional white space and sign) with a decimal digit, the effective limit is 50,
the default; when `offset` is missing or its value does not begin with a decimal digit,
the effective offset is 0, the default. A value that begins with decimal digits is read
as the number those leading digits denote, whatever follows them, and is used as given
when that number is in range (1 to 500 for the limit, 0 to `INT_MAX` for the offset);
in particular a well-formed in-range value is used as given. -/
theorem h_get_todos_query_fallback (req : Request) :
    (∀ (env : Engine) (db : Store), h_get_todos env req db =
      if env.prepare_ok 0 then
        ⟨200, Body.items ((env.visited 0
          (sqlSelectPaged db (effectiveLimit req) (effectiveOffset req))).map
            (fun r => paged_row_json r.cells))⟩
      else ⟨500, Body.error "db list error"⟩) ∧
    (queryParam req.http_url "limit".toList = none → effectiveLimit req = 50) ∧
    (∀ v, queryParam req.http_url "limit".toList = some v → startsWithInteger v = false →
      effectiveLimit req = 50) ∧
    (∀ v ds rest, queryParam req.http_url "limit".toList = some v → v = ds ++ rest →
      ds ≠ [] → (∀ c ∈ ds, isdigit c = true) → (∀ c r, rest = c :: r → isdigit c = false) →
      1 ≤ decimalValue ds → decimalValue ds ≤ 500 →
      effectiveLimit req = decimalValue ds) ∧
    (queryParam req.http_url "offset".toList = none → effectiveOffset req = 0) ∧
    (∀ v, queryParam req.http_url "offset".toList = some v → startsWithInteger v = false →
      effectiveOffset req = 0) ∧
    (∀ v ds rest, queryParam req.http_url "offset".toList = some v → v = ds ++ rest →
      ds ≠ [] → (∀ c ∈ ds, isdigit c = true) → (∀ c r, rest = c :: r → isdigit c = false) →
      (decimalValue ds : Int) ≤ INT_MAX →
      effectiveOffset req = decimalValue ds) := by
  have hkl : ∀ c ∈ "limit".toList, c ≠ '&' := by decide
  have hko : ∀ c ∈ "offset".toList, c ≠ '&' := by decide
  have hl := get_query_int_spec req.http_url "limit".toList 50 hkl
  have ho := get_query_int_spec req.http_url "offset".toList 0 hko
  have hb := fun l o => pageBounds_spec l o
  refine ⟨?_, ?_, ?_, ?_, ?_, ?_, ?_⟩
  · intro env db
    simp only [h_get_todos, effectiveLimit, effectiveOffset]
    rw [db_list_paged_eq]
    cases env.prepare_ok 0 <;> rfl
  · intro h
    rw [h] at hl
    unfold effectiveLimit
    rw [hl]
    exact (hb 50 _).2.2.1 (by decide)
  · intro v h hv
    rw [h] at hl
    simp only [atoi_of_not_startsWithInteger v hv] at hl
    unfold effectiveLimit
    rw [hl]
    exact (hb 0 _).1 (by decide)
  · intro v ds rest h hv hne hds hrest h1 h500
    have hfit : (decimalValue ds : Int) ≤ INT_MAX := by
      unfold INT_MAX
      omega
    rw [h] at hl
    simp only [hv, atoi_digits ds rest hne hds hrest hfit] at hl
    unfold effectiveLimit
    rw [hl]
    exact (hb _ _).2.2.1 ⟨by omega, by omega⟩
  · intro h
    rw [h] at ho
    unfold effectiveOffset
    rw [ho]
    exact (hb _ 0).2.2.2.2.1 (by decide)
  · intro v h hv
    rw [h] at ho
    simp only [atoi_of_not_startsWithInteger v hv] at ho
    unfold effectiveOffset
    rw [ho]
    exact (hb _ 0).2.2.2.2.1 (by decide)
  · intro v ds rest h hv hne hds hrest hfit
    rw [h] at ho
    simp only [hv, atoi_digits ds rest hne hds hrest hfit] at ho
    unfold effectiveOffset
    rw [ho]
    exact (hb _ _).2.2.2.2.1 (Int.ofNat_nonneg _)

/-- Instance of C7: the parameter `42` is parsed as 42, the path
remainder `4a` is rejected, and the PUT and DELETE handlers answer 400 for it. -/
theorem parse_id_validation_witness :
    idSegment ⟨some "42".toList, none, none, none⟩ = some "42".toList ∧
    parse_id_from_request ⟨some "42".toList, none, none, none⟩ = 42 ∧
    idSegment ⟨none, some "/api/todos/4a".toList, none, none⟩ = some "4a".toList ∧
    parse_id_from_request ⟨none, some "/api/todos/4a".toList, none, none⟩ ≤ 0 ∧
    h_delete_todo Engine.ok ⟨none, some "/api/todos/4a".toList, none, none⟩ ⟨[], 0⟩
      = (⟨400, Body.error "invalid id"⟩, ⟨[], 0⟩) :=
  ⟨by decide,
    (((parse_id_validation ⟨some "42".toList, none, none, none⟩).2.1 "42".toList
      (by decide)).2.1 (by decide) (by decide) (by decide)).trans (by decide),
    by decide,
    ((parse_id_validation ⟨none, some "/api/todos/4a".toList, none, none⟩).2.1 "4a".toList
      (by decide)).1 (Or.inr ⟨'a', by decide, by decide⟩),
    ((parse_id_validation ⟨none, some "/api/todos/4a".toList, none, none⟩).2.2
      (((parse_id_validation ⟨none, some "/api/todos/4a".toList, none, none⟩).2.1
        "4a".toList (by decide)).1 (Or.inr ⟨'a', by decide, by decide⟩))
      Engine.ok ⟨[], 0⟩).2⟩

/-- Instance of C8: `?limit=100&offset=20` lists with limit
100 and offset 20, and `?offset=abc` lists with the defaults 50 and 0. -/
theorem h_get_todos_query_fallback_witness :
    queryParam (some "/api/todos?limit=100&offset=20".toList) "limit".toList
      = some "100".toList ∧
    effectiveLimit ⟨none, none, some "/api/todos?limit=100&offset=20".toList, none⟩ = 100 ∧
    effectiveOffset ⟨none, none, some "/api/todos?limit=100&offset=20".toList, none⟩ = 20 ∧
    queryParam (some "/api/todos?offset=abc".toList) "limit".toList = none ∧
    effectiveLimit ⟨none, none, some "/api/todos?offset=abc".toList, none⟩ = 50 ∧
    effectiveOffset ⟨none, none, some "/api/todos?offset=abc".toList, none⟩ = 0 :=
  ⟨by decide,
    ((h_get_todos_query_fallback
        ⟨none, none, some "/api/todos?limit=100&offset=20".toList, none⟩).2.2.2.1
      "100".toList "100".toList [] (by decide) (by decide) (by decide) (by decide)
      (fun _ _ h => by cases h) (by decide) (by decide)).trans (by decide),
    ((h_get_todos_query_fallback
        ⟨none, none, some "/api/todos?limit=100&offset=20".toList, none⟩).2.2.2.2.2.2
      "20".toList "20".toList [] (by decide) (by decide) (by decide) (by decide)
      (fun _ _ h => by cases h) (by decide)).trans (by decide),
    by decide,
    (h_get_todos_query_fallback
        ⟨none, none, some "/api/todos?offset=abc".toList, none⟩).2.1 (by decide),
    (h_get_todos_query_fallback
        ⟨none, none, some "/api/todos?offset=abc".toList, none⟩).2.2.2.2.2.1
      "abc".toList (by decide) (by decide)⟩

/-! ## The table invariant is kept -/

theorem sqlDelete_WF (db : Store) (id : Int) (h : db.WF) : (sqlDelete db id).WF :=
  ⟨List.Pairwise.filter _ h.1, h.2⟩

theorem sqlUpdate_WF (db : Store) (id : Int) (t : Option CStr) (d : Option Int)
    (h : db.WF) : (sqlUpdate db id t d).WF := by
  refine ⟨?_, h.2⟩
  simp only [sqlUpdate, List.pairwise_map]
  refine List.Pairwise.imp ?_ h.1
  intro a b hab
  split_ifs <;> exact hab

/-! ## Further instances -/

/-- Instance of C2: limit 0 becomes 50, limit 1000 becomes 500, and
offset -3 becomes 0. -/
theorem db_list_paged_bounds_witness :
    (pageBounds 0 (-3)).1 = 50 ∧ (pageBounds 1000 (-3)).1 = 500 ∧
    (pageBounds 0 (-3)).2 = 0 :=
  ⟨(db_list_paged_bounds 0 (-3)).1.1 (by decide),
    (db_list_paged_bounds 1000 (-3)).1.2.1 (by decide),
    (db_list_paged_bounds 0 (-3)).1.2.2.2.1 (by decide)⟩

/-- Instance of C9: when the UPDATE statement fails on an existing
item, `h_put_todo` answers 404. -/
theorem handler_status_mapping_witness :
    (h_put_todo ⟨fun _ => true, fun _ => some 0⟩
      ⟨some "1".toList, none, none,
        some (JBody.object [("text", JValue.string "x".toList)])⟩
      ⟨[⟨1, Cell.text "a".toList, Cell.int 0⟩], 1⟩).1
      = ⟨404, Body.error "not found or update failed"⟩ :=
  ((handler_status_mapping ⟨fun _ => true, fun _ => some 0⟩
      ⟨some "1".toList, none, none,
        some (JBody.object [("text", JValue.string "x".toList)])⟩
      ⟨[⟨1, Cell.text "a".toList, Cell.int 0⟩], 1⟩).2.2.1.2
    (JBody.object [("text", JValue.string "x".toList)]) (by decide) rfl).1 (by decide)

end Todo
